import Mathlib

/-!
Shallow embedding of the authorization-and-membership core of the
Cloudnotes multi-tenant backend (TypeScript/Express), together with proofs
about the claims of its design specification.

The repository contains two parallel implementations of the membership
surface:
* an in-memory one (src/backend/src/routes/tenants.ts and the members
  router in src/unnamed/part_017) backed by JS Map stores, and
* a SQL-backed one (src/backend/src/routes/members.ts, the auth routes in
  src/unnamed/part_016 and the tenants routes in src/unnamed/part_018).

Both are embedded below.  JS Map stores and SQL tables are modelled as
Lean lists of rows; Map.set with a freshly generated uuid key is modelled
as list append together with a freshness hypothesis on the generated id;
Map.delete and SQL DELETE as a filter on the key; in-place mutation of a
row found by key (and SQL UPDATE ... WHERE id = ...) as a map over the
list replacing the row with that key.  Dates are embedded as integer
timestamps (milliseconds); purely informational timestamp fields
(createdAt, updatedAt, joinedAt) are omitted from the row types since no
control flow reads them.  bcrypt hashing and jwt verification are
side-effect-free external functions and are passed in as parameters.
-/

namespace Cloudnotes

/-- Role enum, src/unnamed/part_014 lines 6-11. -/
inductive Role where
  | owner
  | admin
  | editor
  | viewer
deriving DecidableEq, Repr

/-- Numeric role hierarchy table, src/unnamed/part_014 lines 14-19
(higher number = more permissions). -/
def RoleHierarchy : Role → Nat
  | Role.viewer => 1
  | Role.editor => 2
  | Role.admin => 3
  | Role.owner => 4

/-- Tenant status enum, src/unnamed/part_014 lines 22-26. -/
inductive TenantStatus where
  | active
  | suspended
  | deleted
deriving DecidableEq, Repr

/-- Invitation status enum, src/unnamed/part_014 lines 28-33. -/
inductive InvitationStatus where
  | pending
  | accepted
  | rejected
  | expired
deriving DecidableEq, Repr

/-- String rendering of an invitation status, as interpolated into the
message of the already-resolved error in src/unnamed/part_017 line 144. -/
def statusString : InvitationStatus → String
  | InvitationStatus.pending => "pending"
  | InvitationStatus.accepted => "accepted"
  | InvitationStatus.rejected => "rejected"
  | InvitationStatus.expired => "expired"

/-- Tenant row (src/unnamed/part_014, interface Tenant; timestamp and
settings fields omitted as purely informational). -/
structure Tenant where
  id : String
  name : String
  slug : String
  status : TenantStatus
  ownerId : String
deriving DecidableEq, Repr

/-- Tenant membership row (src/unnamed/part_014, interface TenantMember;
timestamp fields omitted). -/
structure TenantMember where
  id : String
  tenantId : String
  userId : String
  role : Role
  invitedBy : String
  isSuspended : Bool
deriving DecidableEq, Repr

/-- Invitation row (src/unnamed/part_014, interface Invitation; timestamp
fields other than the load-bearing expiresAt omitted). -/
structure Invitation where
  id : String
  tenantId : String
  email : String
  role : Role
  status : InvitationStatus
  invitedBy : String
  token : String
  expiresAt : Int
deriving DecidableEq, Repr

/-- The error classes of src/backend/src/middleware/errorHandler.ts
lines 22-54, each carrying its message. -/
inductive ApiError where
  | validationError (msg : String)
  | notFoundError (msg : String)
  | unauthorizedError (msg : String)
  | forbiddenError (msg : String)
  | conflictError (msg : String)
deriving DecidableEq, Repr

/-- Combined state of the tenant, membership and invitation stores (the JS
Maps of src/backend/src/routes/tenants.ts lines 18-19 and
src/unnamed/part_017 line 17, or equally the SQL tables tenants,
tenant_members and invitations). -/
structure Store where
  tenants : List Tenant
  tenantMembers : List TenantMember
  invitations : List Invitation
deriving DecidableEq, Repr

/-- The empty initial state of the stores. -/
def emptyStore : Store := { tenants := [], tenantMembers := [], invitations := [] }

/-- Lower-casing as performed by the JS toLowerCase calls of the routes,
computed character-wise so that concrete runs reduce in the kernel. -/
def strLower (s : String) : String := ⟨s.data.map Char.toLower⟩

/-- Whitespace trimming as performed by the JS trim calls of the routes,
computed character-wise. -/
def strTrim (s : String) : String :=
  ⟨((s.data.dropWhile Char.isWhitespace).reverse.dropWhile Char.isWhitespace).reverse⟩

/-- The JS startsWith check, computed character-wise. -/
def strStartsWith (s pre : String) : Bool := pre.data.isPrefixOf s.data

/-- The JS substring(n) call (drop the first n characters), computed
character-wise. -/
def strDrop (s : String) (n : Nat) : String := ⟨s.data.drop n⟩

/-- JavaScript truthiness of an optional string value: undefined and the
empty string are falsy. -/
def truthy : Option String → Bool
  | none => false
  | some s => !(s == "")

/-- JavaScript expression a OR b on optional string values: returns a when
a is truthy, otherwise b. -/
def jsOr (a b : Option String) : Option String :=
  if truthy a then a else b

/-- Tenant resolution, src/backend/src/middleware/tenant.ts lines 17-30:
req.params.tenantId OR req.headers x-tenant-id OR req.user?.tenantId,
and req.tenantId is only set when the chain produced a truthy value. -/
def extractTenant (urlParam header claim : Option String) : Option String :=
  let tenantId := jsOr urlParam (jsOr header claim)
  if truthy tenantId then tenantId else none

/-- Lookup of the acting user's live membership, as done inline by the
route handlers (for example src/unnamed/part_017 lines 29-30):
the first membership row matching the tenant and user that is not
suspended. -/
def findMembership (s : Store) (tenantId userId : String) : Option TenantMember :=
  s.tenantMembers.find? (fun m => m.tenantId == tenantId && m.userId == userId && !m.isSuspended)

/-- Tenant creation, src/backend/src/routes/tenants.ts lines 36-90 (the
SQL variant, src/unnamed/part_018 lines 399-447, performs the same
checks and inserts): validate the name, reject a duplicate slug, create
the tenant and atomically add the creator as the single OWNER membership.
The generated uuids (tenant id, membership id) and the resolved slug are
passed in as parameters. -/
def createTenant (s : Store) (name slug tenantId membershipId userId : String) :
    Except ApiError (Store × Tenant × TenantMember) :=
  if (strTrim name).length < 2 then
    Except.error (ApiError.validationError "Tenant name must be at least 2 characters")
  else if (s.tenants.find? (fun t => t.slug == slug)).isSome then
    Except.error (ApiError.conflictError "A tenant with this slug already exists")
  else
    let tenant : Tenant :=
      { id := tenantId, name := strTrim name, slug := slug,
        status := TenantStatus.active, ownerId := userId }
    let membership : TenantMember :=
      { id := membershipId, tenantId := tenantId, userId := userId,
        role := Role.owner, invitedBy := userId, isSuspended := false }
    Except.ok ({ s with tenants := s.tenants ++ [tenant],
                        tenantMembers := s.tenantMembers ++ [membership] },
               tenant, membership)

/-- Soft tenant deletion, src/backend/src/routes/tenants.ts lines 206-237:
only the recorded owner may delete; the tenant row is kept with status
deleted; memberships are untouched. -/
def deleteTenant (s : Store) (tenantId userId : String) : Except ApiError Store :=
  match s.tenants.find? (fun t => t.id == tenantId) with
  | none => Except.error (ApiError.notFoundError "Tenant")
  | some tenant =>
    if tenant.status = TenantStatus.deleted then
      Except.error (ApiError.notFoundError "Tenant")
    else if tenant.ownerId ≠ userId then
      Except.error (ApiError.forbiddenError "Only the owner can delete a tenant")
    else
      Except.ok { s with tenants := s.tenants.map (fun t =>
        if t.id == tenantId then { t with status := TenantStatus.deleted } else t) }

/-- Field update applied to the found tenant row by the tenant update
route (src/backend/src/routes/tenants.ts lines 189-193; of the fields our
row type carries only name is touched, and only when supplied). -/
def applyTenantUpdate (name : Option String) (t : Tenant) : Tenant :=
  match name with
  | some n => { t with name := strTrim n }
  | none => t

/-- Tenant update, src/backend/src/routes/tenants.ts lines 164-199: admin
or owner may rename; only the name field of our row type is affected. -/
def updateTenant (s : Store) (tenantId userId : String) (name : Option String) :
    Except ApiError Store :=
  match s.tenants.find? (fun t => t.id == tenantId) with
  | none => Except.error (ApiError.notFoundError "Tenant")
  | some tenant =>
    if tenant.status = TenantStatus.deleted then
      Except.error (ApiError.notFoundError "Tenant")
    else match findMembership s tenantId userId with
    | none => Except.error (ApiError.forbiddenError "Admin access required to update tenant")
    | some membership =>
      if membership.role ≠ Role.owner ∧ membership.role ≠ Role.admin then
        Except.error (ApiError.forbiddenError "Admin access required to update tenant")
      else
        Except.ok { s with tenants := s.tenants.map (fun t =>
          if t.id == tenantId then applyTenantUpdate name t else t) }

/-- Member invitation, src/unnamed/part_017 lines 62-125: requires a
non-suspended admin or owner membership of the inviter, forbids inviting
as OWNER, rejects while an invitation for the same tenant and lower-cased
email is still pending, then stores a fresh pending invitation expiring
in 7 days. -/
def inviteMember (s : Store) (tenantId userId email : String) (role : Role)
    (invId invToken : String) (now : Int) : Except ApiError (Store × Invitation) :=
  if email == "" then
    Except.error (ApiError.validationError "Email is required")
  else if ¬(role = Role.admin ∨ role = Role.editor ∨ role = Role.viewer) then
    Except.error (ApiError.validationError "Invalid role. Cannot invite as owner.")
  else match findMembership s tenantId userId with
  | none => Except.error (ApiError.forbiddenError "You are not a member of this tenant")
  | some inviter =>
    if inviter.role ≠ Role.owner ∧ inviter.role ≠ Role.admin then
      Except.error (ApiError.forbiddenError "Only admins and owners can invite members")
    else if (s.invitations.find? (fun i =>
        i.tenantId == tenantId && i.email == strLower email
          && decide (i.status = InvitationStatus.pending))).isSome then
      Except.error (ApiError.validationError "An invitation for this email is already pending")
    else
      let invitation : Invitation :=
        { id := invId, tenantId := tenantId, email := strLower email, role := role,
          status := InvitationStatus.pending, invitedBy := userId, token := invToken,
          expiresAt := now + 7 * 24 * 60 * 60 * 1000 }
      Except.ok ({ s with invitations := s.invitations ++ [invitation] }, invitation)

/-- Invitation acceptance, src/unnamed/part_017 lines 132-192.  The result
is the pair of the outcome and the store after the request: the expiry
branch mutates the found invitation (flips its status to expired) and then
throws, so the store advances even on that failed path. -/
def acceptInvitation (s : Store) (token userId userEmail membershipId : String)
    (now : Int) : Except ApiError (Store × TenantMember) × Store :=
  match s.invitations.find? (fun i => i.token == token) with
  | none => (Except.error (ApiError.notFoundError "Invitation"), s)
  | some invitation =>
    if invitation.status ≠ InvitationStatus.pending then
      (Except.error (ApiError.validationError
        ("Invitation has already been " ++ statusString invitation.status)), s)
    else if now > invitation.expiresAt then
      let s' := { s with invitations := s.invitations.map (fun i =>
        if i.id == invitation.id then { i with status := InvitationStatus.expired } else i) }
      (Except.error (ApiError.validationError "Invitation has expired"), s')
    else if strLower userEmail ≠ invitation.email then
      (Except.error (ApiError.forbiddenError
        "This invitation was sent to a different email address"), s)
    else if (s.tenantMembers.find? (fun m =>
        m.tenantId == invitation.tenantId && m.userId == userId)).isSome then
      (Except.error (ApiError.validationError "You are already a member of this tenant"), s)
    else
      let membership : TenantMember :=
        { id := membershipId, tenantId := invitation.tenantId, userId := userId,
          role := invitation.role, invitedBy := invitation.invitedBy, isSuspended := false }
      let s' := { s with
        tenantMembers := s.tenantMembers ++ [membership],
        invitations := s.invitations.map (fun i =>
          if i.id == invitation.id then { i with status := InvitationStatus.accepted } else i) }
      (Except.ok (s', membership), s')

/-- Member role change, src/unnamed/part_017 lines 199-256: the target is
looked up by member id within the tenant, the actor by live membership;
owner targets and promotion to owner are forbidden, the actor must
strictly outrank the target, and a non-owner actor may not assign a role
at or above their own.  An absent or unparseable body role is modelled as
none. -/
def updateMemberRole (s : Store) (tenantId userId memberId : String)
    (bodyRole : Option Role) : Except ApiError (Store × TenantMember) :=
  match bodyRole with
  | none => Except.error (ApiError.validationError "Valid role is required")
  | some role =>
    match s.tenantMembers.find? (fun m => m.id == memberId) with
    | none => Except.error (ApiError.notFoundError "Member")
    | some targetMember =>
      if targetMember.tenantId ≠ tenantId then
        Except.error (ApiError.notFoundError "Member")
      else match findMembership s tenantId userId with
      | none => Except.error (ApiError.forbiddenError "You are not a member of this tenant")
      | some currentMembership =>
        if targetMember.role = Role.owner then
          Except.error (ApiError.forbiddenError "Cannot change the role of an owner")
        else if role = Role.owner then
          Except.error (ApiError.forbiddenError
            "Cannot promote to owner. Use ownership transfer instead.")
        else if RoleHierarchy currentMembership.role ≤ RoleHierarchy targetMember.role then
          Except.error (ApiError.forbiddenError
            "Cannot modify role of someone with equal or higher role")
        else if RoleHierarchy role ≥ RoleHierarchy currentMembership.role
            ∧ currentMembership.role ≠ Role.owner then
          Except.error (ApiError.forbiddenError
            "Cannot promote member to a role equal or higher than your own")
        else
          let updated := { targetMember with role := role }
          Except.ok ({ s with tenantMembers := s.tenantMembers.map (fun m =>
            if m.id == memberId then { m with role := role } else m) }, updated)

/-- Member removal, src/unnamed/part_017 lines 263-312: owner targets are
never removable; self-removal is allowed without rank checks; removal of
another member requires an admin-or-owner actor who strictly outranks the
target. -/
def removeMember (s : Store) (tenantId userId memberId : String) :
    Except ApiError Store :=
  match s.tenantMembers.find? (fun m => m.id == memberId) with
  | none => Except.error (ApiError.notFoundError "Member")
  | some targetMember =>
    if targetMember.tenantId ≠ tenantId then
      Except.error (ApiError.notFoundError "Member")
    else if targetMember.role = Role.owner then
      Except.error (ApiError.forbiddenError "Cannot remove the owner. Transfer ownership first.")
    else match findMembership s tenantId userId with
    | none => Except.error (ApiError.forbiddenError "You are not a member of this tenant")
    | some currentMembership =>
      let isSelf := targetMember.userId == userId
      let isAdmin := currentMembership.role = Role.owner ∨ currentMembership.role = Role.admin
      if ¬isSelf ∧ ¬isAdmin then
        Except.error (ApiError.forbiddenError "You do not have permission to remove this member")
      else if ¬isSelf
          ∧ RoleHierarchy currentMembership.role ≤ RoleHierarchy targetMember.role then
        Except.error (ApiError.forbiddenError "Cannot remove someone with equal or higher role")
      else
        Except.ok { s with tenantMembers :=
          s.tenantMembers.filter (fun m => !(m.id == memberId)) }

/-- Member suspension, src/unnamed/part_017 lines 319-357: owner targets
and self-suspension are forbidden; the actor needs a non-suspended
admin-or-owner membership and must strictly outrank the target; the
target row is retained with isSuspended set. -/
def suspendMember (s : Store) (tenantId userId memberId : String) :
    Except ApiError (Store × TenantMember) :=
  match s.tenantMembers.find? (fun m => m.id == memberId) with
  | none => Except.error (ApiError.notFoundError "Member")
  | some targetMember =>
    if targetMember.tenantId ≠ tenantId then
      Except.error (ApiError.notFoundError "Member")
    else if targetMember.role = Role.owner then
      Except.error (ApiError.forbiddenError "Cannot suspend the owner")
    else if targetMember.userId = userId then
      Except.error (ApiError.forbiddenError "Cannot suspend yourself")
    else match findMembership s tenantId userId with
    | none => Except.error (ApiError.forbiddenError "Admin access required")
    | some currentMembership =>
      if currentMembership.role ≠ Role.owner ∧ currentMembership.role ≠ Role.admin then
        Except.error (ApiError.forbiddenError "Admin access required")
      else if RoleHierarchy currentMembership.role ≤ RoleHierarchy targetMember.role then
        Except.error (ApiError.forbiddenError
          "Cannot suspend someone with equal or higher role")
      else
        Except.ok ({ s with tenantMembers := s.tenantMembers.map (fun m =>
          if m.id == memberId then { m with isSuspended := true } else m) },
          { targetMember with isSuspended := true })

/-- Members listing, src/unnamed/part_017 lines 24-55: the acting user's
membership in the resolved tenant is re-verified from the store before
the member list for that tenant is returned. -/
def getMembers (s : Store) (tenantId userId : String) :
    Except ApiError (List TenantMember) :=
  match findMembership s tenantId userId with
  | none => Except.error (ApiError.forbiddenError "You are not a member of this tenant")
  | some _ => Except.ok (s.tenantMembers.filter (fun m => m.tenantId == tenantId))

/-- User row of the SQL users table (src/unnamed/part_014, interface
User; only the fields the embedded routes read). -/
structure UserRow where
  id : String
  email : String
  name : String
deriving DecidableEq, Repr

/-- Gate of the requireMinRole middleware, src/unnamed/part_024 lines
55-97, applied to the role claim of the already-authenticated token: no
role claim means no tenant access, otherwise the claim's hierarchy level
must reach the minimum. -/
def requireMinRole (minRole : Role) (userRole : Option Role) : Except ApiError Unit :=
  match userRole with
  | none => Except.error (ApiError.forbiddenError
      "You must be a member of a tenant to access this resource")
  | some r =>
    if RoleHierarchy r < RoleHierarchy minRole then
      Except.error (ApiError.forbiddenError "This action requires at least admin role")
    else
      Except.ok ()

/-- SQL member role change, src/backend/src/routes/members.ts lines
227-285, behind requireMinRole(ADMIN) on the token's role claim: the
target row is looked up by id and tenant; owner targets and self-changes
are forbidden; no comparison between the requester's and the target's
rank is performed before the UPDATE. -/
def updateMemberRoleSql (s : Store) (userRole : Option Role)
    (tenantId requesterId memberId : String) (bodyRole : Option Role) :
    Except ApiError Store :=
  match requireMinRole Role.admin userRole with
  | Except.error e => Except.error e
  | Except.ok _ =>
    match bodyRole with
    | none => Except.error (ApiError.validationError "Role is required")
    | some role =>
      if ¬(role = Role.viewer ∨ role = Role.editor ∨ role = Role.admin) then
        Except.error (ApiError.validationError "Invalid role")
      else match s.tenantMembers.find? (fun m =>
          m.id == memberId && m.tenantId == tenantId) with
      | none => Except.error (ApiError.notFoundError "Member not found")
      | some member =>
        if member.role = Role.owner then
          Except.error (ApiError.forbiddenError "Cannot change owner role")
        else if member.userId = requesterId then
          Except.error (ApiError.forbiddenError "Cannot change your own role")
        else
          Except.ok { s with tenantMembers := s.tenantMembers.map (fun m =>
            if m.id == memberId then { m with role := role } else m) }

/-- SQL member removal, src/backend/src/routes/members.ts lines 292-331,
behind requireMinRole(ADMIN): owner targets and self-removal are
forbidden; no rank comparison between requester and target is performed
before the DELETE. -/
def removeMemberSql (s : Store) (userRole : Option Role)
    (tenantId requesterId memberId : String) : Except ApiError Store :=
  match requireMinRole Role.admin userRole with
  | Except.error e => Except.error e
  | Except.ok _ =>
    match s.tenantMembers.find? (fun m =>
        m.id == memberId && m.tenantId == tenantId) with
    | none => Except.error (ApiError.notFoundError "Member not found")
    | some member =>
      if member.role = Role.owner then
        Except.error (ApiError.forbiddenError "Cannot remove owner")
      else if member.userId = requesterId then
        Except.error (ApiError.forbiddenError "Cannot remove yourself. Use leave endpoint instead")
      else
        Except.ok { s with tenantMembers :=
          s.tenantMembers.filter (fun m => !(m.id == memberId)) }

/-- Self-leave, src/backend/src/routes/members.ts lines 338-371: the
caller's membership row in the resolved tenant is looked up; an OWNER may
never leave; otherwise exactly the found row is deleted by its id. -/
def leaveTenant (members : List TenantMember) (tenantId userId : String) :
    Except ApiError (List TenantMember) :=
  match members.find? (fun m => m.tenantId == tenantId && m.userId == userId) with
  | none => Except.error (ApiError.notFoundError "Membership not found")
  | some member =>
    if member.role = Role.owner then
      Except.error (ApiError.forbiddenError
        "Owner cannot leave. Transfer ownership or delete the tenant instead")
    else
      Except.ok (members.filter (fun m => !(m.id == member.id)))

/-- SQL member invitation, src/backend/src/routes/members.ts lines 62-139,
behind requireMinRole(ADMIN): validates the role, rejects when the invitee
already holds a membership, then inserts a fresh invitation row whose
status defaults to pending (schema default); no check against existing
pending invitations for the same tenant and email is performed. -/
def inviteMemberSql (s : Store) (users : List UserRow) (userRole : Option Role)
    (tenantId inviterId : String) (email : Option String) (role : Option Role)
    (invId invToken : String) (now : Int) : Except ApiError (Store × Invitation) :=
  match requireMinRole Role.admin userRole with
  | Except.error e => Except.error e
  | Except.ok _ =>
    match email, role with
    | none, _ => Except.error (ApiError.validationError "Email and role are required")
    | _, none => Except.error (ApiError.validationError "Email and role are required")
    | some email, some role =>
      if ¬(role = Role.viewer ∨ role = Role.editor ∨ role = Role.admin) then
        Except.error (ApiError.validationError "Invalid role. Must be VIEWER, EDITOR, or ADMIN")
      else
        let inviteeId : Option String :=
          (users.find? (fun u => u.email == strLower email)).map UserRow.id
        match inviteeId with
        | some uid =>
          if (s.tenantMembers.find? (fun m =>
              m.tenantId == tenantId && m.userId == uid)).isSome then
            Except.error (ApiError.validationError "User is already a member of this tenant")
          else
            let invitation : Invitation :=
              { id := invId, tenantId := tenantId, email := strLower email, role := role,
                status := InvitationStatus.pending, invitedBy := inviterId,
                token := invToken, expiresAt := now + 7 * 24 * 60 * 60 * 1000 }
            Except.ok ({ s with invitations := s.invitations ++ [invitation] }, invitation)
        | none =>
          let invitation : Invitation :=
            { id := invId, tenantId := tenantId, email := strLower email, role := role,
              status := InvitationStatus.pending, invitedBy := inviterId,
              token := invToken, expiresAt := now + 7 * 24 * 60 * 60 * 1000 }
          Except.ok ({ s with invitations := s.invitations ++ [invitation] }, invitation)

/-- SQL invitation acceptance, src/backend/src/routes/members.ts lines
146-220: the lookup query itself filters on the token, status pending and
expires_at in the future, so a missing, consumed or expired invitation is
uniformly reported as not found and nothing is mutated; on success one
membership row is inserted and the invitation is marked accepted. -/
def acceptInvitationSql (s : Store) (users : List UserRow)
    (token userId membershipId : String) (now : Int) :
    Except ApiError (Store × TenantMember) :=
  match s.invitations.find? (fun i =>
      i.token == token && decide (i.status = InvitationStatus.pending)
        && decide (now < i.expiresAt)) with
  | none => Except.error (ApiError.notFoundError "Invalid or expired invitation")
  | some invitation =>
    match users.find? (fun u => u.id == userId) with
    | none => Except.error (ApiError.notFoundError "User not found")
    | some user =>
      if strLower user.email ≠ strLower invitation.email then
        Except.error (ApiError.forbiddenError "This invitation is for a different email address")
      else if (s.tenantMembers.find? (fun m =>
          m.tenantId == invitation.tenantId && m.userId == userId)).isSome then
        Except.error (ApiError.validationError "You are already a member of this tenant")
      else
        let membership : TenantMember :=
          { id := membershipId, tenantId := invitation.tenantId, userId := userId,
            role := invitation.role, invitedBy := invitation.invitedBy,
            isSuspended := false }
        Except.ok ({ s with
          tenantMembers := s.tenantMembers ++ [membership],
          invitations := s.invitations.map (fun i =>
            if i.id == invitation.id then { i with status := InvitationStatus.accepted } else i) },
          membership)

/-- Refresh token row of the SQL refresh_tokens table
(src/unnamed/part_016; created_at omitted). -/
structure RefreshTokenRow where
  id : String
  userId : String
  tokenHash : String
  expiresAt : Int
  revokedAt : Option Int
deriving DecidableEq, Repr

/-- Refresh token verification, src/unnamed/part_016 lines 479-514: the
candidate rows are all stored refresh tokens that are unexpired and
unrevoked, and the presented token is bcrypt-compared against each
candidate's stored hash in order until one matches; no match is
Unauthorized.  The bcrypt comparison is passed in as a parameter. -/
def verifyRefreshToken (rows : List RefreshTokenRow)
    (bcryptCompare : String → String → Bool) (refreshTok : String) (now : Int) :
    Except ApiError RefreshTokenRow :=
  if refreshTok == "" then
    Except.error (ApiError.validationError "Refresh token is required")
  else
    match (rows.filter (fun r =>
        decide (now < r.expiresAt) && decide (r.revokedAt = none))).find?
        (fun r => bcryptCompare refreshTok r.tokenHash) with
    | none => Except.error (ApiError.unauthorizedError "Invalid or expired refresh token")
    | some r => Except.ok r

/-- Logout-time revocation, src/unnamed/part_016 lines 622-650: among the
caller's unrevoked refresh token rows, the first whose stored hash
matches the presented token has revoked_at set; no match leaves the table
unchanged. -/
def logoutRevoke (rows : List RefreshTokenRow)
    (bcryptCompare : String → String → Bool) (userId refreshTok : String) (now : Int) :
    List RefreshTokenRow :=
  match (rows.filter (fun r => r.userId == userId && decide (r.revokedAt = none))).find?
      (fun r => bcryptCompare refreshTok r.tokenHash) with
  | none => rows
  | some r => rows.map (fun x => if x.id == r.id then { x with revokedAt := some now } else x)

/-- Claims decoded from an access token (the payload signed in
src/unnamed/part_023 lines 122-135; any field may be absent in a foreign
token). -/
structure TokenClaims where
  sub : Option String
  id : Option String
  email : Option String
  name : Option String
  tenantId : Option String
  role : Option Role
deriving DecidableEq, Repr

/-- The user record the auth middleware attaches to the request,
src/unnamed/part_023 lines 44-50. -/
structure AuthenticatedUser where
  id : Option String
  email : Option String
  name : Option String
  tenantId : Option String
  role : Option Role
deriving DecidableEq, Repr

/-- Mapping from decoded claims to the attached user,
src/unnamed/part_023 lines 44-50: the id is decoded.sub OR decoded.id
under JavaScript truthiness. -/
def userFromClaims (c : TokenClaims) : AuthenticatedUser :=
  { id := jsOr c.sub c.id, email := c.email, name := c.name,
    tenantId := c.tenantId, role := c.role }

/-- Failure modes of jwt.verify distinguished by the auth middleware,
src/unnamed/part_023 lines 53-75. -/
inductive VerifyError where
  | expired
  | malformed
  | other
deriving DecidableEq, Repr

/-- Outcome of an Express middleware: either pass control on (with the
value it attached to the request) or answer the request with an HTTP
status and error code. -/
inductive MwResult (α : Type) where
  | proceed (a : α)
  | respond (status : Nat) (code : String)
deriving DecidableEq, Repr

/-- Required authentication middleware, src/unnamed/part_023 lines 19-84:
a missing or non-Bearer Authorization header, or any verification
failure, answers 401 (or 500 for an unexpected error); success attaches
the decoded user. -/
def authenticate (verify : String → Except VerifyError TokenClaims)
    (authHeader : Option String) : MwResult AuthenticatedUser :=
  match authHeader with
  | none => MwResult.respond 401 "UNAUTHORIZED"
  | some h =>
    if ¬ strStartsWith h "Bearer " then
      MwResult.respond 401 "UNAUTHORIZED"
    else match verify (strDrop h 7) with
    | Except.ok c => MwResult.proceed (userFromClaims c)
    | Except.error VerifyError.expired => MwResult.respond 401 "TOKEN_EXPIRED"
    | Except.error VerifyError.malformed => MwResult.respond 401 "INVALID_TOKEN"
    | Except.error VerifyError.other => MwResult.respond 500 "AUTH_ERROR"

/-- Optional authentication middleware, src/unnamed/part_023 lines
89-117: a missing or non-Bearer header proceeds with no user; a failed
verification is swallowed and proceeds with no user; only a successful
verification attaches the decoded user. -/
def optionalAuth (verify : String → Except VerifyError TokenClaims)
    (authHeader : Option String) : MwResult (Option AuthenticatedUser) :=
  match authHeader with
  | none => MwResult.proceed none
  | some h =>
    if ¬ strStartsWith h "Bearer " then
      MwResult.proceed none
    else match verify (strDrop h 7) with
    | Except.ok c => MwResult.proceed (some (userFromClaims c))
    | Except.error _ => MwResult.proceed none

/-- Number of OWNER memberships of a given tenant in a membership list. -/
def ownerCount (members : List TenantMember) (tenantId : String) : Nat :=
  (members.filter (fun m => m.tenantId == tenantId && decide (m.role = Role.owner))).length

/-- Ids of the tenants present in the store. -/
def tenantIds (s : Store) : List String := s.tenants.map Tenant.id

/-- Ids (Map keys) of a membership list. -/
def memberIds (members : List TenantMember) : List String :=
  members.map TenantMember.id

/-- Number of membership rows a user holds in a tenant. -/
def membershipCount (members : List TenantMember) (tenantId userId : String) : Nat :=
  (members.filter (fun m => m.tenantId == tenantId && m.userId == userId)).length

theorem ownerCount_append (l : List TenantMember) (m : TenantMember) (tid : String) :
    ownerCount (l ++ [m]) tid
      = ownerCount l tid + (if m.tenantId = tid ∧ m.role = Role.owner then 1 else 0) := by
  simp only [ownerCount, List.filter_append]
  by_cases h1 : m.tenantId = tid <;> by_cases h2 : m.role = Role.owner <;>
    simp [h1, h2, List.length_append]

theorem ownerCount_map_eq (l : List TenantMember) (f : TenantMember → TenantMember)
    (tid : String)
    (h : ∀ m ∈ l, (((f m).tenantId == tid) && decide ((f m).role = Role.owner))
        = ((m.tenantId == tid) && decide (m.role = Role.owner))) :
    ownerCount (l.map f) tid = ownerCount l tid := by
  induction l with
  | nil => rfl
  | cons a as ih =>
    have ha := h a (by simp)
    have ihh := ih (fun m hm => h m (by simp [hm]))
    simp only [ownerCount, List.map_cons, List.filter_cons] at *
    rw [ha]
    by_cases hcond : ((a.tenantId == tid) && decide (a.role = Role.owner)) = true
    · simp [hcond, ihh]
    · simp only [Bool.not_eq_true] at hcond
      simp [hcond, ihh]

theorem ownerCount_filter_eq (l : List TenantMember) (p : TenantMember → Bool)
    (tid : String)
    (h : ∀ m ∈ l, p m = false → ¬(m.tenantId = tid ∧ m.role = Role.owner)) :
    ownerCount (l.filter p) tid = ownerCount l tid := by
  unfold ownerCount
  rw [List.filter_filter]
  congr 1
  apply List.filter_congr
  intro m hm
  by_cases hpm : p m = true
  · simp [hpm]
  · simp only [Bool.not_eq_true] at hpm
    have hno := h m hm hpm
    have hcond : (m.tenantId == tid && decide (m.role = Role.owner)) = false := by
      by_cases h1 : m.tenantId = tid <;> by_cases h2 : m.role = Role.owner <;>
        simp [h1, h2] <;> exact absurd ⟨h1, h2⟩ hno
    simp [hpm, hcond]

theorem pointwise_map_eq {α β : Type} (g h : α → β) (l : List α)
    (hp : ∀ a ∈ l, g a = h a) : l.map g = l.map h := by
  induction l with
  | nil => rfl
  | cons a as ih =>
    simp only [List.map_cons]
    rw [hp a (by simp), ih (fun x hx => hp x (by simp [hx]))]

theorem member_eq_of_nodup_ids {l : List TenantMember}
    (hnd : (memberIds l).Nodup) {a b : TenantMember}
    (ha : a ∈ l) (hb : b ∈ l) (hid : a.id = b.id) : a = b :=
  List.inj_on_of_nodup_map hnd ha hb hid

theorem find_unique {α : Type} (l : List α) (p : α → Bool) (m : α)
    (hm : m ∈ l) (hp : p m = true) (huniq : ∀ x ∈ l, p x = true → x = m) :
    l.find? p = some m := by
  induction l with
  | nil => cases hm
  | cons a as ih =>
    by_cases hpa : p a = true
    · have heq : a = m := huniq a (List.mem_cons_self a as) hpa
      subst heq
      simp [List.find?, hpa]
    · simp only [Bool.not_eq_true] at hpa
      have hm' : m ∈ as := by
        cases hm with
        | head => rw [hp] at hpa; cases hpa
        | tail _ h' => exact h'
      simp only [List.find?, hpa]
      exact ih hm' (fun x hx hpx => huniq x (List.mem_cons_of_mem a hx) hpx)

theorem find?_map_of_pred_comm {α : Type} (l : List α) (f : α → α) (p : α → Bool)
    (h : ∀ a, p (f a) = p a) :
    (l.map f).find? p = (l.find? p).map f := by
  induction l with
  | nil => rfl
  | cons a as ih =>
    simp only [List.map_cons, List.find?]
    rw [h a]
    by_cases hpa : p a = true
    · simp [hpa]
    · simp only [Bool.not_eq_true] at hpa
      simp [hpa, ih]

/-- One request-level transition of the membership stores: any of the
embedded mutating endpoints, applied with arbitrary request data.  Freshly
generated uuids (Map keys of inserted rows) carry a freshness hypothesis:
a JS Map.set with a fresh key, and a SQL INSERT with a NEWID() primary
key, add a row rather than replace one.  Read-only endpoints, and the
auth and notes endpoints, do not touch these three stores. -/
inductive Step : Store → Store → Prop where
  | createTenant {s s' : Store} {t : Tenant} {mem : TenantMember}
      (name slug tenantId membershipId userId : String)
      (hT : tenantId ∉ tenantIds s)
      (hM : membershipId ∉ memberIds s.tenantMembers)
      (h : createTenant s name slug tenantId membershipId userId = Except.ok (s', t, mem)) :
      Step s s'
  | deleteTenant {s s' : Store} (tenantId userId : String)
      (h : deleteTenant s tenantId userId = Except.ok s') : Step s s'
  | updateTenant {s s' : Store} (tenantId userId : String) (name : Option String)
      (h : updateTenant s tenantId userId name = Except.ok s') : Step s s'
  | invite {s s' : Store} {inv : Invitation}
      (tenantId userId email : String) (role : Role) (invId invToken : String) (now : Int)
      (hI : invId ∉ s.invitations.map Invitation.id)
      (h : inviteMember s tenantId userId email role invId invToken now
            = Except.ok (s', inv)) : Step s s'
  | accept {s s' : Store} (token userId userEmail membershipId : String) (now : Int)
      (hM : membershipId ∉ memberIds s.tenantMembers)
      (h : (acceptInvitation s token userId userEmail membershipId now).2 = s') :
      Step s s'
  | updateRole {s s' : Store} {mem : TenantMember}
      (tenantId userId memberId : String) (bodyRole : Option Role)
      (h : updateMemberRole s tenantId userId memberId bodyRole = Except.ok (s', mem)) :
      Step s s'
  | remove {s s' : Store} (tenantId userId memberId : String)
      (h : removeMember s tenantId userId memberId = Except.ok s') : Step s s'
  | suspend {s s' : Store} {mem : TenantMember} (tenantId userId memberId : String)
      (h : suspendMember s tenantId userId memberId = Except.ok (s', mem)) : Step s s'
  | updateRoleSql {s s' : Store} (userRole : Option Role)
      (tenantId requesterId memberId : String) (bodyRole : Option Role)
      (h : updateMemberRoleSql s userRole tenantId requesterId memberId bodyRole
            = Except.ok s') : Step s s'
  | removeSql {s s' : Store} (userRole : Option Role)
      (tenantId requesterId memberId : String)
      (h : removeMemberSql s userRole tenantId requesterId memberId = Except.ok s') :
      Step s s'
  | leave {s s' : Store} (tenantId userId : String) (ms' : List TenantMember)
      (h : leaveTenant s.tenantMembers tenantId userId = Except.ok ms')
      (h2 : s' = { s with tenantMembers := ms' }) : Step s s'
  | inviteSql {s s' : Store} {inv : Invitation} (users : List UserRow)
      (userRole : Option Role) (tenantId inviterId : String)
      (email : Option String) (role : Option Role) (invId invToken : String) (now : Int)
      (hI : invId ∉ s.invitations.map Invitation.id)
      (h : inviteMemberSql s users userRole tenantId inviterId email role invId invToken now
            = Except.ok (s', inv)) : Step s s'
  | acceptSql {s s' : Store} {mem : TenantMember} (users : List UserRow)
      (token userId membershipId : String) (now : Int)
      (hM : membershipId ∉ memberIds s.tenantMembers)
      (h : acceptInvitationSql s users token userId membershipId now
            = Except.ok (s', mem)) : Step s s'

/-- The states reachable from the empty stores by request-level
transitions. -/
inductive Reachable : Store → Prop where
  | init : Reachable emptyStore
  | step {s s' : Store} : Reachable s → Step s s' → Reachable s'

/-- The inductive invariant for the single-owner property: every tenant in
the store has exactly one OWNER membership (and absent tenants none), no
invitation ever carries the OWNER role, membership Map keys are distinct,
and an OWNER membership is never suspended. -/
def Inv (s : Store) : Prop :=
  (∀ tid : String, ownerCount s.tenantMembers tid = if tid ∈ tenantIds s then 1 else 0)
  ∧ (∀ i ∈ s.invitations, i.role ≠ Role.owner)
  ∧ (memberIds s.tenantMembers).Nodup
  ∧ (∀ m ∈ s.tenantMembers, m.role = Role.owner → m.isSuspended = false)

theorem inv_init : Inv emptyStore := by
  refine ⟨?_, ?_, ?_, ?_⟩ <;> simp [emptyStore, ownerCount, tenantIds, memberIds]

theorem createTenant_ok {s s' : Store} {t : Tenant} {mem : TenantMember}
    {name slug tenantId membershipId userId : String}
    (h : createTenant s name slug tenantId membershipId userId = Except.ok (s', t, mem)) :
    s' = { s with
      tenants := s.tenants ++ [⟨tenantId, strTrim name, slug, TenantStatus.active, userId⟩],
      tenantMembers := s.tenantMembers ++
        [⟨membershipId, tenantId, userId, Role.owner, userId, false⟩] } := by
  unfold createTenant at h
  split at h
  · simp at h
  · split at h
    · simp at h
    · simp only [Except.ok.injEq, Prod.mk.injEq] at h
      exact h.1.symm

theorem inviteMember_ok {s s' : Store} {inv : Invitation}
    {tenantId userId email : String} {role : Role} {invId invToken : String} {now : Int}
    (h : inviteMember s tenantId userId email role invId invToken now
          = Except.ok (s', inv)) :
    (role = Role.admin ∨ role = Role.editor ∨ role = Role.viewer)
    ∧ inv = { id := invId, tenantId := tenantId, email := strLower email, role := role,
              status := InvitationStatus.pending, invitedBy := userId, token := invToken,
              expiresAt := now + 7 * 24 * 60 * 60 * 1000 }
    ∧ s' = { s with invitations := s.invitations ++ [inv] } := by
  unfold inviteMember at h
  split at h
  · simp at h
  · split at h
    · simp at h
    · next hrole =>
      split at h
      · simp at h
      · split at h
        · simp at h
        · split at h
          · simp at h
          · simp only [Except.ok.injEq, Prod.mk.injEq] at h
            refine ⟨not_not.mp hrole, h.2.symm, ?_⟩
            rw [← h.1, ← h.2]

theorem invitation_roles_map {l : List Invitation} {f : Invitation → Invitation}
    (hf : ∀ i, (f i).role = i.role) (hb : ∀ i ∈ l, i.role ≠ Role.owner) :
    ∀ i ∈ l.map f, i.role ≠ Role.owner := by
  intro i hi
  rcases List.mem_map.mp hi with ⟨j, hj, rfl⟩
  rw [hf j]
  exact hb j hj

theorem acceptInvitation_snd (s : Store) (token userId userEmail membershipId : String)
    (now : Int) :
    (acceptInvitation s token userId userEmail membershipId now).2 = s
    ∨ (∃ invitation, s.invitations.find? (fun i => i.token == token) = some invitation
        ∧ (acceptInvitation s token userId userEmail membershipId now).2
          = { s with invitations := s.invitations.map (fun i =>
              if i.id == invitation.id then { i with status := InvitationStatus.expired }
              else i) })
    ∨ (∃ invitation, s.invitations.find? (fun i => i.token == token) = some invitation
        ∧ (acceptInvitation s token userId userEmail membershipId now).2
          = { s with
              tenantMembers := s.tenantMembers ++
                [⟨membershipId, invitation.tenantId, userId, invitation.role,
                  invitation.invitedBy, false⟩],
              invitations := s.invitations.map (fun i =>
                if i.id == invitation.id then { i with status := InvitationStatus.accepted }
                else i) }) := by
  unfold acceptInvitation
  split
  · exact Or.inl rfl
  · next invitation hfind =>
    split
    · exact Or.inl rfl
    · split
      · exact Or.inr (Or.inl ⟨invitation, hfind, rfl⟩)
      · split
        · exact Or.inl rfl
        · split
          · exact Or.inl rfl
          · exact Or.inr (Or.inr ⟨invitation, hfind, rfl⟩)

theorem updateMemberRole_ok {s s' : Store} {mem : TenantMember}
    {tenantId userId memberId : String} {bodyRole : Option Role}
    (h : updateMemberRole s tenantId userId memberId bodyRole = Except.ok (s', mem)) :
    ∃ role targetMember currentMembership,
      bodyRole = some role
      ∧ s.tenantMembers.find? (fun m => m.id == memberId) = some targetMember
      ∧ targetMember.tenantId = tenantId
      ∧ findMembership s tenantId userId = some currentMembership
      ∧ targetMember.role ≠ Role.owner
      ∧ role ≠ Role.owner
      ∧ RoleHierarchy currentMembership.role > RoleHierarchy targetMember.role
      ∧ s' = { s with tenantMembers := s.tenantMembers.map (fun m =>
          if m.id == memberId then { m with role := role } else m) } := by
  unfold updateMemberRole at h
  split at h
  · simp at h
  · next role =>
    split at h
    · simp at h
    · next targetMember hfindT =>
      split at h
      · simp at h
      · next htenant =>
        split at h
        · simp at h
        · next currentMembership hfindC =>
          split at h
          · simp at h
          · next howner =>
            split at h
            · simp at h
            · next hrole =>
              split at h
              · simp at h
              · next hrank =>
                split at h
                · simp at h
                · simp only [Except.ok.injEq, Prod.mk.injEq] at h
                  exact ⟨role, targetMember, currentMembership, rfl, hfindT,
                    not_not.mp htenant, hfindC, howner, hrole,
                    Nat.lt_of_not_le hrank, h.1.symm⟩

theorem removeMember_ok {s s' : Store} {tenantId userId memberId : String}
    (h : removeMember s tenantId userId memberId = Except.ok s') :
    ∃ targetMember currentMembership,
      s.tenantMembers.find? (fun m => m.id == memberId) = some targetMember
      ∧ targetMember.tenantId = tenantId
      ∧ findMembership s tenantId userId = some currentMembership
      ∧ targetMember.role ≠ Role.owner
      ∧ (targetMember.userId ≠ userId →
          RoleHierarchy currentMembership.role > RoleHierarchy targetMember.role)
      ∧ s' = { s with tenantMembers :=
          s.tenantMembers.filter (fun m => !(m.id == memberId)) } := by
  unfold removeMember at h
  split at h
  · simp at h
  · next targetMember hfindT =>
    split at h
    · simp at h
    · next htenant =>
      split at h
      · simp at h
      · next howner =>
        split at h
        · simp at h
        · next currentMembership hfindC =>
          dsimp only at h
          split at h
          · simp at h
          · next hperm =>
            split at h
            · simp at h
            · next hrank =>
              simp only [Except.ok.injEq] at h
              refine ⟨targetMember, currentMembership, hfindT, not_not.mp htenant,
                hfindC, howner, ?_, h.symm⟩
              intro hne
              by_contra hle
              apply hrank
              constructor
              · simp only [ne_eq] at hne
                simp [hne]
              · exact Nat.le_of_not_lt hle

theorem suspendMember_ok {s s' : Store} {mem : TenantMember}
    {tenantId userId memberId : String}
    (h : suspendMember s tenantId userId memberId = Except.ok (s', mem)) :
    ∃ targetMember currentMembership,
      s.tenantMembers.find? (fun m => m.id == memberId) = some targetMember
      ∧ targetMember.tenantId = tenantId
      ∧ targetMember.role ≠ Role.owner
      ∧ targetMember.userId ≠ userId
      ∧ findMembership s tenantId userId = some currentMembership
      ∧ RoleHierarchy currentMembership.role > RoleHierarchy targetMember.role
      ∧ s' = { s with tenantMembers := s.tenantMembers.map (fun m =>
          if m.id == memberId then { m with isSuspended := true } else m) } := by
  unfold suspendMember at h
  split at h
  · simp at h
  · next targetMember hfindT =>
    split at h
    · simp at h
    · next htenant =>
      split at h
      · simp at h
      · next howner =>
        split at h
        · simp at h
        · next hself =>
          split at h
          · simp at h
          · next currentMembership hfindC =>
            split at h
            · simp at h
            · next hadm =>
              split at h
              · simp at h
              · next hrank =>
                simp only [Except.ok.injEq, Prod.mk.injEq] at h
                exact ⟨targetMember, currentMembership, hfindT, not_not.mp htenant,
                  howner, hself, hfindC, Nat.lt_of_not_le hrank, h.1.symm⟩

theorem updateMemberRoleSql_ok {s s' : Store} {userRole : Option Role}
    {tenantId requesterId memberId : String} {bodyRole : Option Role}
    (h : updateMemberRoleSql s userRole tenantId requesterId memberId bodyRole
          = Except.ok s') :
    ∃ role member,
      bodyRole = some role
      ∧ (role = Role.viewer ∨ role = Role.editor ∨ role = Role.admin)
      ∧ s.tenantMembers.find? (fun m => m.id == memberId && m.tenantId == tenantId)
          = some member
      ∧ member.role ≠ Role.owner
      ∧ member.userId ≠ requesterId
      ∧ s' = { s with tenantMembers := s.tenantMembers.map (fun m =>
          if m.id == memberId then { m with role := role } else m) } := by
  unfold updateMemberRoleSql at h
  split at h
  · simp at h
  · split at h
    · simp at h
    · next role =>
      split at h
      · simp at h
      · next hvalid =>
        split at h
        · simp at h
        · next member hfind =>
          split at h
          · simp at h
          · next howner =>
            split at h
            · simp at h
            · next hself =>
              simp only [Except.ok.injEq] at h
              exact ⟨role, member, rfl, not_not.mp hvalid, hfind, howner, hself, h.symm⟩

theorem removeMemberSql_ok {s s' : Store} {userRole : Option Role}
    {tenantId requesterId memberId : String}
    (h : removeMemberSql s userRole tenantId requesterId memberId = Except.ok s') :
    ∃ member,
      s.tenantMembers.find? (fun m => m.id == memberId && m.tenantId == tenantId)
          = some member
      ∧ member.role ≠ Role.owner
      ∧ member.userId ≠ requesterId
      ∧ s' = { s with tenantMembers :=
          s.tenantMembers.filter (fun m => !(m.id == memberId)) } := by
  unfold removeMemberSql at h
  split at h
  · simp at h
  · split at h
    · simp at h
    · next member hfind =>
      split at h
      · simp at h
      · next howner =>
        split at h
        · simp at h
        · next hself =>
          simp only [Except.ok.injEq] at h
          exact ⟨member, hfind, howner, hself, h.symm⟩

theorem leaveTenant_ok {members ms' : List TenantMember} {tenantId userId : String}
    (h : leaveTenant members tenantId userId = Except.ok ms') :
    ∃ member,
      members.find? (fun m => m.tenantId == tenantId && m.userId == userId) = some member
      ∧ member.role ≠ Role.owner
      ∧ ms' = members.filter (fun m => !(m.id == member.id)) := by
  unfold leaveTenant at h
  split at h
  · simp at h
  · next member hfind =>
    split at h
    · simp at h
    · next howner =>
      simp only [Except.ok.injEq] at h
      exact ⟨member, hfind, howner, h.symm⟩

theorem inviteMemberSql_ok {s s' : Store} {inv : Invitation} {users : List UserRow}
    {userRole : Option Role} {tenantId inviterId : String}
    {email : Option String} {role : Option Role} {invId invToken : String} {now : Int}
    (h : inviteMemberSql s users userRole tenantId inviterId email role invId invToken now
          = Except.ok (s', inv)) :
    ∃ em r,
      email = some em ∧ role = some r
      ∧ (r = Role.viewer ∨ r = Role.editor ∨ r = Role.admin)
      ∧ inv = { id := invId, tenantId := tenantId, email := strLower em, role := r,
                status := InvitationStatus.pending, invitedBy := inviterId,
                token := invToken, expiresAt := now + 7 * 24 * 60 * 60 * 1000 }
      ∧ s' = { s with invitations := s.invitations ++ [inv] } := by
  unfold inviteMemberSql at h
  split at h
  · simp at h
  · split at h
    · simp at h
    · simp at h
    · next em r =>
      split at h
      · simp at h
      · next hvalid =>
        dsimp only at h
        split at h
        · next uid huid =>
          split at h
          · simp at h
          · simp only [Except.ok.injEq, Prod.mk.injEq] at h
            refine ⟨em, r, rfl, rfl, not_not.mp hvalid, h.2.symm, ?_⟩
            rw [← h.1, ← h.2]
        · next hnouser =>
          simp only [Except.ok.injEq, Prod.mk.injEq] at h
          refine ⟨em, r, rfl, rfl, not_not.mp hvalid, h.2.symm, ?_⟩
          rw [← h.1, ← h.2]

theorem acceptInvitationSql_ok {s s' : Store} {mem : TenantMember}
    {users : List UserRow} {token userId membershipId : String} {now : Int}
    (h : acceptInvitationSql s users token userId membershipId now
          = Except.ok (s', mem)) :
    ∃ invitation user,
      s.invitations.find? (fun i =>
          i.token == token && decide (i.status = InvitationStatus.pending)
            && decide (now < i.expiresAt)) = some invitation
      ∧ users.find? (fun u => u.id == userId) = some user
      ∧ mem = { id := membershipId, tenantId := invitation.tenantId, userId := userId,
                role := invitation.role, invitedBy := invitation.invitedBy,
                isSuspended := false }
      ∧ s' = { s with
          tenantMembers := s.tenantMembers ++ [mem],
          invitations := s.invitations.map (fun i =>
            if i.id == invitation.id then { i with status := InvitationStatus.accepted }
            else i) } := by
  unfold acceptInvitationSql at h
  split at h
  · simp at h
  · next invitation hfind =>
    split at h
    · simp at h
    · next user huser =>
      split at h
      · simp at h
      · split at h
        · simp at h
        · simp only [Except.ok.injEq, Prod.mk.injEq] at h
          refine ⟨invitation, user, hfind, huser, h.2.symm, ?_⟩
          rw [← h.1, ← h.2]

theorem memberIds_map_of_id_eq {l : List TenantMember} {f : TenantMember → TenantMember}
    (hf : ∀ m, (f m).id = m.id) : memberIds (l.map f) = memberIds l := by
  simp only [memberIds, List.map_map]
  exact pointwise_map_eq _ _ l (fun m _ => hf m)

theorem inv_invitations_append {s : Store} (hInv : Inv s) (inv : Invitation)
    (hrole : inv.role ≠ Role.owner) :
    Inv { s with invitations := s.invitations ++ [inv] } := by
  obtain ⟨ha, hb, hc, hd⟩ := hInv
  refine ⟨ha, ?_, hc, hd⟩
  intro i hi
  rcases List.mem_append.mp hi with hi | hi
  · exact hb i hi
  · rcases List.mem_singleton.mp hi with rfl
    exact hrole

theorem inv_invitations_map {s : Store} (hInv : Inv s) (f : Invitation → Invitation)
    (hf : ∀ i, (f i).role = i.role) :
    Inv { s with invitations := s.invitations.map f } := by
  obtain ⟨ha, hb, hc, hd⟩ := hInv
  exact ⟨ha, invitation_roles_map hf hb, hc, hd⟩

theorem inv_member_append {s : Store} (hInv : Inv s) (m : TenantMember)
    (hrole : m.role ≠ Role.owner) (hfresh : m.id ∉ memberIds s.tenantMembers)
    (invs' : List Invitation) (hroles : ∀ i ∈ invs', i.role ≠ Role.owner) :
    Inv { s with tenantMembers := s.tenantMembers ++ [m], invitations := invs' } := by
  obtain ⟨ha, _, hc, hd⟩ := hInv
  refine ⟨?_, hroles, ?_, ?_⟩
  · intro tid
    show ownerCount (s.tenantMembers ++ [m]) tid = if tid ∈ tenantIds s then 1 else 0
    rw [ownerCount_append]
    have hno : ¬(m.tenantId = tid ∧ m.role = Role.owner) := fun hx => hrole hx.2
    rw [if_neg hno, Nat.add_zero]
    exact ha tid
  · show (memberIds (s.tenantMembers ++ [m])).Nodup
    simp only [memberIds, List.map_append, List.map_cons, List.map_nil,
      List.nodup_append, List.nodup_cons, List.nodup_nil]
    refine ⟨hc, by simp, ?_⟩
    intro x hx
    simp only [List.mem_singleton]
    intro hxm
    subst hxm
    exact hfresh hx
  · show ∀ m' ∈ s.tenantMembers ++ [m], m'.role = Role.owner → m'.isSuspended = false
    intro m' hm'
    rcases List.mem_append.mp hm' with hm' | hm'
    · exact hd m' hm'
    · rcases List.mem_singleton.mp hm' with rfl
      intro hro
      exact absurd hro hrole

theorem inv_members_filter {s : Store} (hInv : Inv s) (memberId : String)
    (target : TenantMember) (hmem : target ∈ s.tenantMembers) (hid : target.id = memberId)
    (howner : target.role ≠ Role.owner) :
    Inv { s with tenantMembers := s.tenantMembers.filter (fun m => !(m.id == memberId)) } := by
  obtain ⟨ha, hb, hc, hd⟩ := hInv
  refine ⟨?_, hb, ?_, ?_⟩
  · intro tid
    show ownerCount (s.tenantMembers.filter (fun m => !(m.id == memberId))) tid
      = if tid ∈ tenantIds s then 1 else 0
    rw [ownerCount_filter_eq]
    · exact ha tid
    · intro m hm hpm
      simp only [Bool.not_eq_false', beq_iff_eq] at hpm
      have hme : m = target := member_eq_of_nodup_ids hc hm hmem (by rw [hpm, hid])
      subst hme
      exact fun hx => howner hx.2
  · show (memberIds (s.tenantMembers.filter (fun m => !(m.id == memberId)))).Nodup
    exact List.Nodup.sublist (List.Sublist.map _ (List.filter_sublist _)) hc
  · show ∀ m' ∈ s.tenantMembers.filter (fun m => !(m.id == memberId)),
      m'.role = Role.owner → m'.isSuspended = false
    intro m' hm'
    exact hd m' (List.mem_of_mem_filter hm')

theorem inv_members_map_role {s : Store} (hInv : Inv s) (memberId : String) (role : Role)
    (target : TenantMember) (hmem : target ∈ s.tenantMembers) (hid : target.id = memberId)
    (howner : target.role ≠ Role.owner) (hrole : role ≠ Role.owner) :
    Inv { s with tenantMembers := s.tenantMembers.map (fun m =>
      if m.id == memberId then { m with role := role } else m) } := by
  obtain ⟨ha, hb, hc, hd⟩ := hInv
  refine ⟨?_, hb, ?_, ?_⟩
  · intro tid
    show ownerCount (s.tenantMembers.map (fun m =>
        if m.id == memberId then { m with role := role } else m)) tid
      = if tid ∈ tenantIds s then 1 else 0
    rw [ownerCount_map_eq]
    · exact ha tid
    · intro m hm
      by_cases hcase : (m.id == memberId) = true
      · have hmeq : m = target := member_eq_of_nodup_ids hc hm hmem
          (by rw [beq_iff_eq] at hcase; rw [hcase, hid])
        subst hmeq
        simp [hcase, decide_eq_false hrole, decide_eq_false howner]
      · simp only [Bool.not_eq_true] at hcase
        simp [hcase]
  · show (memberIds (s.tenantMembers.map (fun m =>
      if m.id == memberId then { m with role := role } else m))).Nodup
    rw [memberIds_map_of_id_eq]
    · exact hc
    · intro m
      by_cases hcase : (m.id == memberId) = true <;> simp [hcase]
  · show ∀ m' ∈ s.tenantMembers.map (fun m =>
        if m.id == memberId then { m with role := role } else m),
      m'.role = Role.owner → m'.isSuspended = false
    intro m' hm'
    rcases List.mem_map.mp hm' with ⟨m, hm, rfl⟩
    by_cases hcase : (m.id == memberId) = true
    · have hmeq : m = target := member_eq_of_nodup_ids hc hm hmem
        (by rw [beq_iff_eq] at hcase; rw [hcase, hid])
      subst hmeq
      simp only [hcase, if_true]
      intro hro
      exact absurd hro hrole
    · simp only [Bool.not_eq_true] at hcase
      simp only [hcase, Bool.false_eq_true, if_false]
      exact hd m hm

theorem inv_members_map_suspend {s : Store} (hInv : Inv s) (memberId : String)
    (target : TenantMember) (hmem : target ∈ s.tenantMembers) (hid : target.id = memberId)
    (howner : target.role ≠ Role.owner) :
    Inv { s with tenantMembers := s.tenantMembers.map (fun m =>
      if m.id == memberId then { m with isSuspended := true } else m) } := by
  obtain ⟨ha, hb, hc, hd⟩ := hInv
  refine ⟨?_, hb, ?_, ?_⟩
  · intro tid
    show ownerCount (s.tenantMembers.map (fun m =>
        if m.id == memberId then { m with isSuspended := true } else m)) tid
      = if tid ∈ tenantIds s then 1 else 0
    rw [ownerCount_map_eq]
    · exact ha tid
    · intro m hm
      by_cases hcase : (m.id == memberId) = true <;> simp [hcase]
  · show (memberIds (s.tenantMembers.map (fun m =>
      if m.id == memberId then { m with isSuspended := true } else m))).Nodup
    rw [memberIds_map_of_id_eq]
    · exact hc
    · intro m
      by_cases hcase : (m.id == memberId) = true <;> simp [hcase]
  · show ∀ m' ∈ s.tenantMembers.map (fun m =>
        if m.id == memberId then { m with isSuspended := true } else m),
      m'.role = Role.owner → m'.isSuspended = false
    intro m' hm'
    rcases List.mem_map.mp hm' with ⟨m, hm, rfl⟩
    by_cases hcase : (m.id == memberId) = true
    · have hmeq : m = target := member_eq_of_nodup_ids hc hm hmem
        (by rw [beq_iff_eq] at hcase; rw [hcase, hid])
      subst hmeq
      simp only [hcase, if_true]
      intro hro
      exact absurd hro howner
    · simp only [Bool.not_eq_true] at hcase
      simp only [hcase, Bool.false_eq_true, if_false]
      exact hd m hm

theorem inv_tenants_map {s : Store} (hInv : Inv s) (f : Tenant → Tenant)
    (hf : ∀ t, (f t).id = t.id) :
    Inv { s with tenants := s.tenants.map f } := by
  obtain ⟨ha, hb, hc, hd⟩ := hInv
  refine ⟨?_, hb, hc, hd⟩
  intro tid
  have : tenantIds { s with tenants := s.tenants.map f } = tenantIds s := by
    simp only [tenantIds, List.map_map]
    exact pointwise_map_eq _ _ s.tenants (fun t _ => hf t)
  rw [this]
  exact ha tid

theorem inv_create {s : Store} (hInv : Inv s) (t : Tenant) (m : TenantMember)
    (htid : m.tenantId = t.id) (hrole : m.role = Role.owner) (hsusp : m.isSuspended = false)
    (hfreshT : t.id ∉ tenantIds s) (hfreshM : m.id ∉ memberIds s.tenantMembers) :
    Inv { s with tenants := s.tenants ++ [t], tenantMembers := s.tenantMembers ++ [m] } := by
  obtain ⟨ha, hb, hc, hd⟩ := hInv
  refine ⟨?_, hb, ?_, ?_⟩
  · intro tid
    have hids : (s.tenants ++ [t]).map Tenant.id = tenantIds s ++ [t.id] := by
      simp [tenantIds]
    show ownerCount (s.tenantMembers ++ [m]) tid
      = if tid ∈ (s.tenants ++ [t]).map Tenant.id then 1 else 0
    rw [ownerCount_append, hids]
    by_cases hcase : tid = t.id
    · subst hcase
      rw [if_pos ⟨htid, hrole⟩, ha t.id, if_neg hfreshT, if_pos (by simp)]
    · have hind : ¬(m.tenantId = tid ∧ m.role = Role.owner) := by
        intro hx
        exact hcase (by rw [← hx.1, htid])
      rw [if_neg hind, Nat.add_zero, ha tid]
      by_cases hmem : tid ∈ tenantIds s
      · rw [if_pos hmem, if_pos (by simp [hmem])]
      · rw [if_neg hmem, if_neg (by simp [hmem, hcase])]
  · show (memberIds (s.tenantMembers ++ [m])).Nodup
    simp only [memberIds, List.map_append, List.map_cons, List.map_nil,
      List.nodup_append, List.nodup_cons, List.nodup_nil]
    refine ⟨hc, by simp, ?_⟩
    intro x hx
    simp only [List.mem_singleton]
    intro hxm
    subst hxm
    exact hfreshM hx
  · show ∀ m' ∈ s.tenantMembers ++ [m], m'.role = Role.owner → m'.isSuspended = false
    intro m' hm'
    rcases List.mem_append.mp hm' with hm' | hm'
    · exact hd m' hm'
    · rcases List.mem_singleton.mp hm' with rfl
      intro _
      exact hsusp

theorem deleteTenant_ok {s s' : Store} {tenantId userId : String}
    (h : deleteTenant s tenantId userId = Except.ok s') :
    s' = { s with tenants := s.tenants.map (fun t =>
      if t.id == tenantId then { t with status := TenantStatus.deleted } else t) } := by
  unfold deleteTenant at h
  split at h
  · simp at h
  · split at h
    · simp at h
    · split at h
      · simp at h
      · simp only [Except.ok.injEq] at h
        exact h.symm

theorem updateTenant_ok {s s' : Store} {tenantId userId : String} {name : Option String}
    (h : updateTenant s tenantId userId name = Except.ok s') :
    s' = { s with tenants := s.tenants.map (fun t =>
      if t.id == tenantId then applyTenantUpdate name t else t) } := by
  unfold updateTenant at h
  split at h
  · simp at h
  · split at h
    · simp at h
    · split at h
      · simp at h
      · split at h
        · simp at h
        · simp only [Except.ok.injEq] at h
          exact h.symm

theorem role_valid_ne_owner {r : Role}
    (h : r = Role.viewer ∨ r = Role.editor ∨ r = Role.admin) : r ≠ Role.owner := by
  rcases h with rfl | rfl | rfl <;> simp

theorem target_facts {l : List TenantMember} {memberId : String} {target : TenantMember}
    (hfind : l.find? (fun m => m.id == memberId) = some target) :
    target ∈ l ∧ target.id = memberId := by
  refine ⟨List.mem_of_find?_eq_some hfind, ?_⟩
  have := List.find?_some hfind
  simpa [beq_iff_eq] using this

theorem target_facts_sql {l : List TenantMember} {memberId tenantId : String}
    {target : TenantMember}
    (hfind : l.find? (fun m => m.id == memberId && m.tenantId == tenantId) = some target) :
    target ∈ l ∧ target.id = memberId := by
  refine ⟨List.mem_of_find?_eq_some hfind, ?_⟩
  have := List.find?_some hfind
  simp only [Bool.and_eq_true, beq_iff_eq] at this
  exact this.1

theorem inv_step {s s' : Store} (hInv : Inv s) (hstep : Step s s') : Inv s' := by
  cases hstep with
  | createTenant name slug tenantId membershipId userId hT hM h =>
    rw [createTenant_ok h]
    exact inv_create hInv _ _ rfl rfl rfl hT hM
  | deleteTenant tenantId userId h =>
    rw [deleteTenant_ok h]
    apply inv_tenants_map hInv
    intro t
    by_cases hcase : (t.id == tenantId) = true <;> simp [hcase]
  | updateTenant tenantId userId name h =>
    rw [updateTenant_ok h]
    apply inv_tenants_map hInv
    intro t
    by_cases hcase : (t.id == tenantId) = true
    · cases name <;> simp [hcase, applyTenantUpdate]
    · simp [hcase]
  | invite tenantId userId email role invId invToken now hI h =>
    obtain ⟨hrole, hinv, hs'⟩ := inviteMember_ok h
    rw [hs']
    apply inv_invitations_append hInv
    rw [hinv]
    exact fun hx => by
      rcases hrole with hr | hr | hr <;> simp [hr] at hx
  | accept token userId userEmail membershipId now hM h =>
    rcases acceptInvitation_snd s token userId userEmail membershipId now with
      heq | ⟨invitation, hfind, heq⟩ | ⟨invitation, hfind, heq⟩
    · rw [← h, heq]; exact hInv
    · rw [← h, heq]
      apply inv_invitations_map hInv
      intro i
      by_cases hcase : (i.id == invitation.id) = true <;> simp [hcase]
    · rw [← h, heq]
      have hmem := List.mem_of_find?_eq_some hfind
      have hrole : invitation.role ≠ Role.owner := hInv.2.1 invitation hmem
      apply inv_member_append hInv _ hrole hM
      apply invitation_roles_map
      · intro i
        by_cases hcase : (i.id == invitation.id) = true <;> simp [hcase]
      · exact hInv.2.1
  | updateRole tenantId userId memberId bodyRole h =>
    obtain ⟨role, target, current, _, hfindT, _, _, howner, hrole, _, hs'⟩ :=
      updateMemberRole_ok h
    obtain ⟨hmem, hid⟩ := target_facts hfindT
    rw [hs']
    exact inv_members_map_role hInv memberId role target hmem hid howner hrole
  | remove tenantId userId memberId h =>
    obtain ⟨target, current, hfindT, _, _, howner, _, hs'⟩ := removeMember_ok h
    obtain ⟨hmem, hid⟩ := target_facts hfindT
    rw [hs']
    exact inv_members_filter hInv memberId target hmem hid howner
  | suspend tenantId userId memberId h =>
    obtain ⟨target, current, hfindT, _, howner, _, _, _, hs'⟩ := suspendMember_ok h
    obtain ⟨hmem, hid⟩ := target_facts hfindT
    rw [hs']
    exact inv_members_map_suspend hInv memberId target hmem hid howner
  | updateRoleSql userRole tenantId requesterId memberId bodyRole h =>
    obtain ⟨role, member, _, hvalid, hfind, howner, _, hs'⟩ := updateMemberRoleSql_ok h
    obtain ⟨hmem, hid⟩ := target_facts_sql hfind
    rw [hs']
    exact inv_members_map_role hInv memberId role member hmem hid howner
      (role_valid_ne_owner hvalid)
  | removeSql userRole tenantId requesterId memberId h =>
    obtain ⟨member, hfind, howner, _, hs'⟩ := removeMemberSql_ok h
    obtain ⟨hmem, hid⟩ := target_facts_sql hfind
    rw [hs']
    exact inv_members_filter hInv memberId member hmem hid howner
  | leave tenantId userId ms' h h2 =>
    obtain ⟨member, hfind, howner, hms'⟩ := leaveTenant_ok h
    have hmem := List.mem_of_find?_eq_some hfind
    rw [h2, hms']
    exact inv_members_filter hInv member.id member hmem rfl howner
  | inviteSql users userRole tenantId inviterId email role invId invToken now hI h =>
    obtain ⟨em, r, _, _, hvalid, hinv, hs'⟩ := inviteMemberSql_ok h
    rw [hs']
    apply inv_invitations_append hInv
    rw [hinv]
    exact role_valid_ne_owner hvalid
  | acceptSql users token userId membershipId now hM h =>
    obtain ⟨invitation, user, hfind, _, hmemdef, hs'⟩ := acceptInvitationSql_ok h
    rw [hs']
    have hmem := List.mem_of_find?_eq_some hfind
    have hrole : invitation.role ≠ Role.owner := hInv.2.1 invitation hmem
    apply inv_member_append hInv _ (by rw [hmemdef]; exact hrole) (by rw [hmemdef]; exact hM)
    apply invitation_roles_map
    · intro i
      by_cases hcase : (i.id == invitation.id) = true <;> simp [hcase]
    · exact hInv.2.1

theorem inv_reachable {s : Store} (h : Reachable s) : Inv s := by
  induction h with
  | init => exact inv_init
  | step _ hstep ih => exact inv_step ih hstep

/-- C1: at every reachable state of the membership stores, every tenant
has exactly one OWNER membership, and no OWNER membership is ever
suspended.  Tenant creation is the only transition that introduces an
OWNER membership (atomically with its tenant); role change, suspension,
removal and leave all refuse OWNER targets and never assign the OWNER
role, so the single unsuspended OWNER persists across every operation of
both implementations. -/
theorem single_owner_invariant (s : Store) (h : Reachable s) :
    (∀ t ∈ s.tenants, ownerCount s.tenantMembers t.id = 1)
    ∧ (∀ m ∈ s.tenantMembers, m.role = Role.owner → m.isSuspended = false) := by
  obtain ⟨ha, _, _, hd⟩ := inv_reachable h
  refine ⟨?_, hd⟩
  intro t ht
  rw [ha t.id, if_pos (show t.id ∈ tenantIds s from List.mem_map_of_mem Tenant.id ht)]

/-- A concrete store produced by one tenant-creation request. -/
def demoStore : Store :=
  { tenants := [⟨"t1", "Acme", "acme", TenantStatus.active, "u1"⟩],
    tenantMembers := [⟨"m1", "t1", "u1", Role.owner, "u1", false⟩],
    invitations := [] }

theorem single_owner_invariant_witness :
    ownerCount demoStore.tenantMembers "t1" = 1 := by
  have hcreate : createTenant emptyStore "Acme" "acme" "t1" "m1" "u1"
      = Except.ok (demoStore,
          (⟨"t1", "Acme", "acme", TenantStatus.active, "u1"⟩ : Tenant),
          (⟨"m1", "t1", "u1", Role.owner, "u1", false⟩ : TenantMember)) := rfl
  have hreach : Reachable demoStore :=
    Reachable.step Reachable.init
      (Step.createTenant "Acme" "acme" "t1" "m1" "u1"
        (by simp [tenantIds, emptyStore])
        (by simp [memberIds, emptyStore])
        hcreate)
  exact (single_owner_invariant demoStore hreach).1
    ⟨"t1", "Acme", "acme", TenantStatus.active, "u1"⟩ (by simp [demoStore])

/-- A store whose only invitation is already accepted and also past its
expiry time. -/
def expiredAcceptedInvStore : Store :=
  { tenants := [⟨"t1", "Acme", "acme", TenantStatus.active, "u1"⟩],
    tenantMembers := [⟨"m1", "t1", "u1", Role.owner, "u1", false⟩],
    invitations :=
      [⟨"i1", "t1", "a@x.com", Role.editor, InvitationStatus.accepted, "u1", "tk", 0⟩] }

/-- C3 counterexample: invitation i1 is past its expiresAt (0 < now =
100) but its status is accepted, not pending; the accept attempt reports
the already-accepted error rather than the expired error, and the store
is completely unchanged — no status flip to expired happens.  This
contradicts the claim that every expired invitation yields the Expired
error and flips to expired regardless of its prior status: the in-memory
accept checks the pending status before expiry. -/
theorem expired_nonpending_accept_no_flip :
    (acceptInvitation expiredAcceptedInvStore "tk" "u9" "a@x.com" "m9" 100).1
      = Except.error (ApiError.validationError "Invitation has already been accepted")
    ∧ (acceptInvitation expiredAcceptedInvStore "tk" "u9" "a@x.com" "m9" 100).2
      = expiredAcceptedInvStore :=
  ⟨rfl, rfl⟩

/-- C3 (amended): on the in-memory accept endpoint, an invitation that is
still PENDING and past its expiresAt yields the expired error with the
status flip to expired as the only state mutation; an invitation that is
no longer pending yields the already-(status) error with no mutation at
all, regardless of expiry; and the SQL accept endpoint excludes expired
invitations in its lookup query, reporting NotFound with no mutation. -/
theorem expired_pending_accept_flips_status (s : Store)
    (token userId userEmail membershipId : String) (now : Int) (inv : Invitation)
    (hfind : s.invitations.find? (fun i => i.token == token) = some inv) :
    (inv.status = InvitationStatus.pending → now > inv.expiresAt →
      acceptInvitation s token userId userEmail membershipId now
        = (Except.error (ApiError.validationError "Invitation has expired"),
           { s with invitations := s.invitations.map (fun i =>
              if i.id == inv.id then { i with status := InvitationStatus.expired }
              else i) }))
    ∧ (inv.status ≠ InvitationStatus.pending →
        acceptInvitation s token userId userEmail membershipId now
          = (Except.error (ApiError.validationError
              ("Invitation has already been " ++ statusString inv.status)), s))
    ∧ (∀ (sq : Store) (users : List UserRow) (uid mid : String) (now2 : Int),
        (∀ i ∈ sq.invitations, i.token = token → ¬ now2 < i.expiresAt) →
        acceptInvitationSql sq users token uid mid now2
          = Except.error (ApiError.notFoundError "Invalid or expired invitation")) := by
  refine ⟨?_, ?_, ?_⟩
  · intro hpend hexp
    unfold acceptInvitation
    rw [hfind]
    dsimp only
    rw [if_neg (fun hc => hc hpend), if_pos hexp]
  · intro hpend
    unfold acceptInvitation
    rw [hfind]
    dsimp only
    rw [if_pos hpend]
  · intro sq users uid mid now2 hall
    unfold acceptInvitationSql
    have hnone : sq.invitations.find? (fun i =>
        i.token == token && decide (i.status = InvitationStatus.pending)
          && decide (now2 < i.expiresAt)) = none := by
      rw [List.find?_eq_none]
      intro i hi hcontra
      simp only [Bool.and_eq_true, beq_iff_eq, decide_eq_true_eq] at hcontra
      exact hall i hi hcontra.1.1 hcontra.2
    rw [hnone]

/-- A store whose only invitation is pending but past its expiry time. -/
def pendingExpiredInvStore : Store :=
  { tenants := [⟨"t1", "Acme", "acme", TenantStatus.active, "u1"⟩],
    tenantMembers := [⟨"m1", "t1", "u1", Role.owner, "u1", false⟩],
    invitations :=
      [⟨"i1", "t1", "a@x.com", Role.editor, InvitationStatus.pending, "u1", "tk", 0⟩] }

theorem expired_pending_accept_flips_status_witness :
    acceptInvitation pendingExpiredInvStore "tk" "u9" "a@x.com" "m9" 100
      = (Except.error (ApiError.validationError "Invitation has expired"),
         { pendingExpiredInvStore with invitations :=
            [⟨"i1", "t1", "a@x.com", Role.editor, InvitationStatus.expired, "u1", "tk", 0⟩] }) := by
  exact (expired_pending_accept_flips_status pendingExpiredInvStore "tk" "u9" "a@x.com"
    "m9" 100 ⟨"i1", "t1", "a@x.com", Role.editor, InvitationStatus.pending, "u1", "tk", 0⟩
    rfl).1 rfl (by decide)

/-- C4: accepting an invitation token is single-use and not idempotent:
a successful accept marks the invitation accepted and creates exactly one
membership (the accepting user's count in the tenant becomes 1), and any
second accept of the same token fails with the already-accepted
invalid-state error, mutating nothing, so the membership count stays 1. -/
theorem accept_single_use (s : Store) (token userId userEmail membershipId : String)
    (now : Int) (inv : Invitation)
    (hfind : s.invitations.find? (fun i => i.token == token) = some inv)
    (hpend : inv.status = InvitationStatus.pending)
    (hexp : ¬ now > inv.expiresAt)
    (hemail : strLower userEmail = inv.email)
    (hmem : s.tenantMembers.find? (fun m =>
        m.tenantId == inv.tenantId && m.userId == userId) = none) :
    ∃ s₁ mem,
      acceptInvitation s token userId userEmail membershipId now
        = (Except.ok (s₁, mem), s₁)
      ∧ membershipCount s₁.tenantMembers inv.tenantId userId = 1
      ∧ ∀ (uid2 em2 mid2 : String) (now2 : Int),
          acceptInvitation s₁ token uid2 em2 mid2 now2
            = (Except.error (ApiError.validationError
                "Invitation has already been accepted"), s₁) := by
  have hfirst : acceptInvitation s token userId userEmail membershipId now
      = (Except.ok ({ s with
            tenantMembers := s.tenantMembers ++
              [⟨membershipId, inv.tenantId, userId, inv.role, inv.invitedBy, false⟩],
            invitations := s.invitations.map (fun i =>
              if i.id == inv.id then { i with status := InvitationStatus.accepted }
              else i) },
          ⟨membershipId, inv.tenantId, userId, inv.role, inv.invitedBy, false⟩),
         { s with
            tenantMembers := s.tenantMembers ++
              [⟨membershipId, inv.tenantId, userId, inv.role, inv.invitedBy, false⟩],
            invitations := s.invitations.map (fun i =>
              if i.id == inv.id then { i with status := InvitationStatus.accepted }
              else i) }) := by
    unfold acceptInvitation
    rw [hfind]
    dsimp only
    rw [if_neg (fun hc => hc hpend), if_neg hexp,
      if_neg (fun hc => hc hemail), if_neg (by rw [hmem]; simp)]
  refine ⟨_, _, hfirst, ?_, ?_⟩
  · show membershipCount (s.tenantMembers ++
      [⟨membershipId, inv.tenantId, userId, inv.role, inv.invitedBy, false⟩])
        inv.tenantId userId = 1
    unfold membershipCount
    rw [List.filter_append]
    have hnil : s.tenantMembers.filter (fun m =>
        m.tenantId == inv.tenantId && m.userId == userId) = [] := by
      rw [List.filter_eq_nil_iff]
      intro m hm
      exact (List.find?_eq_none.mp hmem) m hm
    rw [hnil]
    simp
  · intro uid2 em2 mid2 now2
    have hfind2 : (s.invitations.map (fun i =>
        if i.id == inv.id then { i with status := InvitationStatus.accepted } else i)).find?
          (fun i => i.token == token)
        = some { inv with status := InvitationStatus.accepted } := by
      rw [find?_map_of_pred_comm]
      · rw [hfind]
        simp
      · intro i
        by_cases hcase : (i.id == inv.id) = true <;> simp [hcase]
    unfold acceptInvitation
    rw [show ({ s with
        tenantMembers := s.tenantMembers ++
          [⟨membershipId, inv.tenantId, userId, inv.role, inv.invitedBy, false⟩],
        invitations := s.invitations.map (fun i =>
          if i.id == inv.id then { i with status := InvitationStatus.accepted }
          else i) } : Store).invitations
      = s.invitations.map (fun i =>
          if i.id == inv.id then { i with status := InvitationStatus.accepted } else i)
      from rfl]
    rw [hfind2]
    dsimp only
    rw [if_pos (by simp)]
    rfl

/-- A store with a live pending invitation for b@x.com. -/
def pendingInvStore : Store :=
  { tenants := [⟨"t1", "Acme", "acme", TenantStatus.active, "u1"⟩],
    tenantMembers := [⟨"m1", "t1", "u1", Role.owner, "u1", false⟩],
    invitations :=
      [⟨"i1", "t1", "b@x.com", Role.editor, InvitationStatus.pending, "u1", "tk", 1000⟩] }

theorem accept_single_use_witness :
    ∃ s₁ mem,
      acceptInvitation pendingInvStore "tk" "u2" "b@x.com" "m2" 100
        = (Except.ok (s₁, mem), s₁)
      ∧ membershipCount s₁.tenantMembers "t1" "u2" = 1
      ∧ ∀ (uid2 em2 mid2 : String) (now2 : Int),
          acceptInvitation s₁ "tk" uid2 em2 mid2 now2
            = (Except.error (ApiError.validationError
                "Invitation has already been accepted"), s₁) :=
  accept_single_use pendingInvStore "tk" "u2" "b@x.com" "m2" 100
    ⟨"i1", "t1", "b@x.com", Role.editor, InvitationStatus.pending, "u1", "tk", 1000⟩
    rfl rfl (by decide) (by decide) rfl

/-- Tenant membership validation middleware,
src/backend/src/middleware/tenant.ts lines 54-99: a missing user answers
401 and a missing tenant answers 400, but the store lookup that would
check the user's membership is a commented-out TODO, so every
authenticated request with a resolved tenant proceeds unchecked. -/
def validateTenantMembership (user : Option AuthenticatedUser)
    (tenantId : Option String) : MwResult Unit :=
  match user with
  | none => MwResult.respond 401 "UNAUTHORIZED"
  | some _ =>
    match tenantId with
    | none => MwResult.respond 400 "TENANT_REQUIRED"
    | some _ => MwResult.proceed ()

/-- SQL members listing, src/backend/src/routes/members.ts lines 24-55:
the resolved tenant's membership rows are inner-joined with their user
rows and returned; the handler performs no check that the requesting
user is a member of that tenant (the result ordering of the query is
omitted as presentational). -/
def getMembersSql (s : Store) (users : List UserRow) (tenantId : String) :
    List (TenantMember × UserRow) :=
  (s.tenantMembers.filter (fun m => m.tenantId == tenantId)).filterMap
    (fun m => (users.find? (fun u => u.id == m.userId)).map (fun u => (m, u)))

/-- The roster of tenant T2: an OWNER u1 and an EDITOR u2. -/
def t2RosterStore : Store :=
  { tenants := [⟨"T2", "Beta", "beta", TenantStatus.active, "u1"⟩],
    tenantMembers :=
      [⟨"m1", "T2", "u1", Role.owner, "u1", false⟩,
       ⟨"m2", "T2", "u2", Role.editor, "u1", false⟩],
    invitations := [] }

/-- The user rows joined by the T2 roster listing. -/
def t2Users : List UserRow :=
  [⟨"u1", "o@x.com", "Olive"⟩, ⟨"u2", "e@x.com", "Ed"⟩]

/-- A requester authenticated with a token issued for tenant T1. -/
def t1AdminUser : AuthenticatedUser :=
  { id := some "u9", email := some "n@x.com", name := some "Nina",
    tenantId := some "T1", role := some Role.admin }

/-- C5 counterexample: the request carries a token for tenant T1 together
with the header X-Tenant-ID T2; resolution yields T2 as the claim says,
but the cited validateTenantMembership middleware proceeds without any
store check, and the SQL members listing then returns tenant T2's full
roster to the requester u9 although u9 holds no membership in T2 — an
authorized pass-through instead of the Forbidden the claim requires of
every request. -/
theorem sql_members_pass_through_without_membership :
    extractTenant none (some "T2") (some "T1") = some "T2"
    ∧ validateTenantMembership (some t1AdminUser) (some "T2") = MwResult.proceed ()
    ∧ findMembership t2RosterStore "T2" "u9" = none
    ∧ getMembersSql t2RosterStore t2Users "T2"
      = [(⟨"m1", "T2", "u1", Role.owner, "u1", false⟩, ⟨"u1", "o@x.com", "Olive"⟩),
         (⟨"m2", "T2", "u2", Role.editor, "u1", false⟩, ⟨"u2", "e@x.com", "Ed"⟩)] :=
  ⟨rfl, rfl, rfl, rfl⟩

/-- C5 (amended): for every request, a (non-empty) X-Tenant-ID header T2
outranks the token's tenant claim T1 in tenant resolution.  Only the
in-memory members surface then re-verifies membership in the store: its
listing answers Forbidden to a user with no unsuspended membership in
the resolved tenant.  The validateTenantMembership middleware the spec
points at proceeds for every authenticated request with a resolved
tenant (its store lookup is a commented-out TODO), and the SQL members
listing performs no membership re-verification at all: every membership
row of the resolved tenant, joined with its user row, is returned even
when the requesting user holds no membership there. -/
theorem tenant_resolution_membership_check_amended
    (t1 t2 userId : String) (s : Store) (users : List UserRow) (h2 : t2 ≠ "")
    (hnomem : s.tenantMembers.find? (fun m =>
        m.tenantId == t2 && m.userId == userId && !m.isSuspended) = none) :
    extractTenant none (some t2) (some t1) = some t2
    ∧ getMembers s t2 userId
        = Except.error (ApiError.forbiddenError "You are not a member of this tenant")
    ∧ (∀ u : AuthenticatedUser,
        validateTenantMembership (some u) (some t2) = MwResult.proceed ())
    ∧ (∀ m ∈ s.tenantMembers, m.tenantId = t2 →
        ∀ u, users.find? (fun x => x.id == m.userId) = some u →
          (m, u) ∈ getMembersSql s users t2) := by
  refine ⟨?_, ?_, ?_, ?_⟩
  · have ht : truthy (some t2) = true := by simp [truthy, h2]
    unfold extractTenant jsOr
    dsimp only
    rw [show truthy none = false from rfl, ht]
    simp [ht]
  · unfold getMembers findMembership
    rw [hnomem]
  · intro u
    rfl
  · intro m hm hmtid u hfound
    unfold getMembersSql
    rw [List.mem_filterMap]
    refine ⟨m, List.mem_filter.mpr ⟨hm, by simp [hmtid]⟩, ?_⟩
    rw [hfound]
    rfl

theorem tenant_resolution_membership_check_amended_witness :
    extractTenant none (some "T2") (some "T1") = some "T2"
    ∧ (⟨"m2", "T2", "u2", Role.editor, "u1", false⟩,
        (⟨"u2", "e@x.com", "Ed"⟩ : UserRow)) ∈ getMembersSql t2RosterStore t2Users "T2" := by
  have h := tenant_resolution_membership_check_amended "T1" "T2" "u9" t2RosterStore
    t2Users (by decide) rfl
  exact ⟨h.1, h.2.2.2 ⟨"m2", "T2", "u2", Role.editor, "u1", false⟩
    (by simp [t2RosterStore]) rfl ⟨"u2", "e@x.com", "Ed"⟩ rfl⟩

/-- C6 counterexample: with no URL parameter, an X-Tenant-ID header that
is present but carries the empty string is skipped by the JavaScript
truthiness chain of extractTenant and the token claim wins, contradicting
the claim that a present header always outranks the token claim. -/
theorem empty_header_falls_through_to_claim :
    extractTenant none (some "") (some "T1") = some "T1"
    ∧ ¬ extractTenant none (some "") (some "T1") = some "" := by
  refine ⟨rfl, ?_⟩
  intro hc
  simp [extractTenant, jsOr, truthy] at hc

/-- C6 (amended): tenant resolution returns the URL path parameter when
present and non-empty; otherwise the X-Tenant-ID header when present and
non-empty; otherwise the token claim when present and non-empty;
otherwise no tenant — presence under JavaScript truthiness, where an
empty-string value counts as absent. -/
theorem extractTenant_priority_amended (p h c : Option String) :
    (∀ v, p = some v → v ≠ "" → extractTenant p h c = some v)
    ∧ ((p = none ∨ p = some "") →
        ∀ v, h = some v → v ≠ "" → extractTenant p h c = some v)
    ∧ ((p = none ∨ p = some "") → (h = none ∨ h = some "") →
        ∀ v, c = some v → v ≠ "" → extractTenant p h c = some v)
    ∧ ((p = none ∨ p = some "") → (h = none ∨ h = some "") →
        (c = none ∨ c = some "") → extractTenant p h c = none) := by
  refine ⟨?_, ?_, ?_, ?_⟩
  · intro v hp hv
    subst hp
    simp [extractTenant, jsOr, truthy, hv]
  · intro hp v hh hv
    subst hh
    rcases hp with rfl | rfl <;> simp [extractTenant, jsOr, truthy, hv]
  · intro hp hh v hc hv
    subst hc
    rcases hp with rfl | rfl <;> rcases hh with rfl | rfl <;>
      simp [extractTenant, jsOr, truthy, hv]
  · intro hp hh hc
    rcases hp with rfl | rfl <;> rcases hh with rfl | rfl <;>
      rcases hc with rfl | rfl <;> simp [extractTenant, jsOr, truthy]

theorem extractTenant_priority_amended_witness :
    extractTenant (some "TA") (some "TB") (some "TC") = some "TA" :=
  (extractTenant_priority_amended (some "TA") (some "TB") (some "TC")).1
    "TA" rfl (by decide)

/-- C7: for a member whose row ids and (tenant, user) pair are unique in
the table (the schema's key constraints), a self-leave by a non-OWNER
always succeeds and deletes exactly that member's row, leaving every
other row unchanged and in order; a self-leave by the OWNER always fails
with the Forbidden error and removes nothing. -/
theorem self_leave_spec (members : List TenantMember) (tenantId userId : String)
    (m : TenantMember) (hm : m ∈ members)
    (ht : m.tenantId = tenantId) (hu : m.userId = userId)
    (hnodup : (memberIds members).Nodup)
    (huniq : ∀ x ∈ members, x.tenantId = tenantId → x.userId = userId → x = m) :
    (m.role = Role.owner →
      leaveTenant members tenantId userId
        = Except.error (ApiError.forbiddenError
            "Owner cannot leave. Transfer ownership or delete the tenant instead"))
    ∧ (m.role ≠ Role.owner →
      ∃ l₁ l₂, members = l₁ ++ m :: l₂
        ∧ leaveTenant members tenantId userId = Except.ok (l₁ ++ l₂)) := by
  have hfind : members.find? (fun x => x.tenantId == tenantId && x.userId == userId)
      = some m := by
    apply find_unique
    · exact hm
    · simp [ht, hu]
    · intro x hx hpx
      simp only [Bool.and_eq_true, beq_iff_eq] at hpx
      exact huniq x hx hpx.1 hpx.2
  constructor
  · intro howner
    unfold leaveTenant
    rw [hfind]
    dsimp only
    rw [if_pos howner]
  · intro howner
    obtain ⟨l₁, l₂, rfl⟩ := List.append_of_mem hm
    refine ⟨l₁, l₂, rfl, ?_⟩
    unfold leaveTenant
    rw [hfind]
    dsimp only
    rw [if_neg howner]
    have hids : m.id ∉ l₁.map TenantMember.id ∧ m.id ∉ l₂.map TenantMember.id := by
      have := hnodup
      simp only [memberIds, List.map_append, List.map_cons, List.nodup_append,
        List.nodup_cons] at this
      refine ⟨?_, this.2.1.1⟩
      intro hc
      exact this.2.2 hc (List.mem_cons_self m.id (l₂.map TenantMember.id))
    congr 1
    rw [List.filter_append, List.filter_cons]
    have hmfalse : (!(m.id == m.id)) = false := by simp
    rw [hmfalse]
    simp only [Bool.false_eq_true, if_false]
    have h₁ : l₁.filter (fun x => !(x.id == m.id)) = l₁ := by
      rw [List.filter_eq_self]
      intro x hx
      simp only [Bool.not_eq_eq_eq_not, Bool.not_true, beq_eq_false_iff_ne, ne_eq]
      intro hc
      exact hids.1 (by rw [← hc]; exact List.mem_map_of_mem TenantMember.id hx)
    have h₂ : l₂.filter (fun x => !(x.id == m.id)) = l₂ := by
      rw [List.filter_eq_self]
      intro x hx
      simp only [Bool.not_eq_eq_eq_not, Bool.not_true, beq_eq_false_iff_ne, ne_eq]
      intro hc
      exact hids.2 (by rw [← hc]; exact List.mem_map_of_mem TenantMember.id hx)
    rw [h₁, h₂]

/-- A store with an OWNER u1 and an EDITOR u2 in tenant t1. -/
def ownerEditorMembers : List TenantMember :=
  [⟨"m1", "t1", "u1", Role.owner, "u1", false⟩,
   ⟨"m2", "t1", "u2", Role.editor, "u1", false⟩]

theorem self_leave_spec_witness :
    (leaveTenant ownerEditorMembers "t1" "u1"
      = Except.error (ApiError.forbiddenError
          "Owner cannot leave. Transfer ownership or delete the tenant instead"))
    ∧ ∃ l₁ l₂,
        ownerEditorMembers = l₁ ++ ⟨"m2", "t1", "u2", Role.editor, "u1", false⟩ :: l₂
        ∧ leaveTenant ownerEditorMembers "t1" "u2" = Except.ok (l₁ ++ l₂) := by
  constructor
  · exact (self_leave_spec ownerEditorMembers "t1" "u1"
      ⟨"m1", "t1", "u1", Role.owner, "u1", false⟩
      (by simp [ownerEditorMembers]) rfl rfl (by decide)
      (by decide)).1 rfl
  · exact (self_leave_spec ownerEditorMembers "t1" "u2"
      ⟨"m2", "t1", "u2", Role.editor, "u1", false⟩
      (by simp [ownerEditorMembers]) rfl rfl (by decide)
      (by decide)).2 (by decide)

/-- Classifier for the error class of a route outcome: true exactly for
the ConflictError class (HTTP 409) of the error handler. -/
def isConflictResult {α : Type} : Except ApiError α → Bool
  | Except.error (ApiError.conflictError _) => true
  | _ => false

/-- A store carrying a pending invitation for b@x.com in tenant t1,
whose OWNER is u1. -/
def pendingDupStore : Store :=
  { tenants := [⟨"t1", "Acme", "acme", TenantStatus.active, "u1"⟩],
    tenantMembers := [⟨"m1", "t1", "u1", Role.owner, "u1", false⟩],
    invitations :=
      [⟨"i1", "t1", "b@x.com", Role.editor, InvitationStatus.pending, "u1", "tk1", 999⟩] }

/-- C8 counterexample: a second invitation for the same (tenant, email)
while one is pending is rejected, but with the ValidationError class
(HTTP 400), not the ConflictError class (HTTP 409) the claim names. -/
theorem duplicate_pending_invite_not_conflict :
    inviteMember pendingDupStore "t1" "u1" "b@x.com" Role.editor "i2" "tk2" 0
      = Except.error (ApiError.validationError
          "An invitation for this email is already pending")
    ∧ isConflictResult
        (inviteMember pendingDupStore "t1" "u1" "b@x.com" Role.editor "i2" "tk2" 0)
      = false :=
  ⟨rfl, rfl⟩

/-- C8 (amended): on the in-memory invite endpoint, a second invitation
for the same (tenant, lower-cased email) while one is still pending is
rejected — with a ValidationError (400), not a ConflictError (409) — and
once no pending invitation for the pair remains, a fresh invitation is
issued successfully; the SQL invite endpoint performs no
pending-duplicate check at all and inserts a second pending invitation
for the same pair. -/
theorem duplicate_pending_invite_amended (s : Store) (tenantId userId email : String)
    (role : Role) (invId invToken : String) (now : Int) (inviter : TenantMember)
    (hemail : (email == "") = false)
    (hrole : role = Role.admin ∨ role = Role.editor ∨ role = Role.viewer)
    (hfindI : findMembership s tenantId userId = some inviter)
    (hadm : inviter.role = Role.owner ∨ inviter.role = Role.admin) :
    ((s.invitations.find? (fun i => i.tenantId == tenantId
        && i.email == strLower email
        && decide (i.status = InvitationStatus.pending))).isSome →
      inviteMember s tenantId userId email role invId invToken now
        = Except.error (ApiError.validationError
            "An invitation for this email is already pending"))
    ∧ (s.invitations.find? (fun i => i.tenantId == tenantId
        && i.email == strLower email
        && decide (i.status = InvitationStatus.pending)) = none →
      inviteMember s tenantId userId email role invId invToken now
        = Except.ok ({ s with invitations := s.invitations ++
            [⟨invId, tenantId, strLower email, role, InvitationStatus.pending,
              userId, invToken, now + 7 * 24 * 60 * 60 * 1000⟩] },
          ⟨invId, tenantId, strLower email, role, InvitationStatus.pending,
            userId, invToken, now + 7 * 24 * 60 * 60 * 1000⟩))
    ∧ (∀ (users : List UserRow) (tokenRole : Role) (invId2 invToken2 : String),
        ¬ RoleHierarchy tokenRole < RoleHierarchy Role.admin →
        users.find? (fun u => u.email == strLower email) = none →
        inviteMemberSql s users (some tokenRole) tenantId userId
            (some email) (some role) invId2 invToken2 now
          = Except.ok ({ s with invitations := s.invitations ++
              [⟨invId2, tenantId, strLower email, role, InvitationStatus.pending,
                userId, invToken2, now + 7 * 24 * 60 * 60 * 1000⟩] },
            ⟨invId2, tenantId, strLower email, role, InvitationStatus.pending,
              userId, invToken2, now + 7 * 24 * 60 * 60 * 1000⟩)) := by
  have hvalid : ¬¬(role = Role.admin ∨ role = Role.editor ∨ role = Role.viewer) :=
    not_not_intro hrole
  have hadm' : ¬(inviter.role ≠ Role.owner ∧ inviter.role ≠ Role.admin) := by
    rcases hadm with h | h <;> simp [h]
  refine ⟨?_, ?_, ?_⟩
  · intro hdup
    unfold inviteMember
    rw [hemail]
    simp only [Bool.false_eq_true, if_false]
    rw [if_neg hvalid, hfindI]
    dsimp only
    rw [if_neg hadm', if_pos hdup]
  · intro hnodup
    unfold inviteMember
    rw [hemail]
    simp only [Bool.false_eq_true, if_false]
    rw [if_neg hvalid, hfindI]
    dsimp only
    rw [if_neg hadm', if_neg (by rw [hnodup]; simp)]
  · intro users tokenRole invId2 invToken2 hmin husers
    unfold inviteMemberSql requireMinRole
    dsimp only
    rw [if_neg hmin]
    dsimp only
    have hvalid2 : ¬¬(role = Role.viewer ∨ role = Role.editor ∨ role = Role.admin) := by
      rcases hrole with h | h | h <;> simp [h]
    rw [if_neg hvalid2, husers]
    rfl

theorem duplicate_pending_invite_amended_witness :
    inviteMember pendingDupStore "t1" "u1" "b@x.com" Role.editor "i2" "tk2" 0
      = Except.error (ApiError.validationError
          "An invitation for this email is already pending") :=
  (duplicate_pending_invite_amended pendingDupStore "t1" "u1" "b@x.com" Role.editor
    "i2" "tk2" 0 ⟨"m1", "t1", "u1", Role.owner, "u1", false⟩
    rfl (Or.inr (Or.inl rfl)) rfl (Or.inl rfl)).1 rfl

/-- C9: verification of a presented refresh token succeeds exactly when
some persisted refresh-token row that is unexpired and unrevoked has a
stored bcrypt hash matching the token — a stored-hash scan over all
candidate rows, not a pure signature check; consequently, when every row
whose hash matches has been revoked (as logout does), verification is
rejected with the Unauthorized error, and in particular a token whose
unique matching row is revoked by logout is rejected afterwards. -/
theorem refresh_token_stored_hash_match (rows : List RefreshTokenRow)
    (bcryptCompare : String → String → Bool) (refreshTok : String)
    (now now2 : Int) (userId : String)
    (htok : (refreshTok == "") = false) :
    ((∃ r, verifyRefreshToken rows bcryptCompare refreshTok now = Except.ok r)
      ↔ ∃ r ∈ rows, now < r.expiresAt ∧ r.revokedAt = none
          ∧ bcryptCompare refreshTok r.tokenHash = true)
    ∧ ((∀ r ∈ rows, bcryptCompare refreshTok r.tokenHash = true → r.revokedAt ≠ none) →
        verifyRefreshToken rows bcryptCompare refreshTok now
          = Except.error (ApiError.unauthorizedError "Invalid or expired refresh token"))
    ∧ (∀ rv ∈ rows, bcryptCompare refreshTok rv.tokenHash = true → rv.userId = userId →
        rv.revokedAt = none →
        (∀ x ∈ rows, bcryptCompare refreshTok x.tokenHash = true → x = rv) →
        verifyRefreshToken (logoutRevoke rows bcryptCompare userId refreshTok now2)
            bcryptCompare refreshTok now
          = Except.error (ApiError.unauthorizedError "Invalid or expired refresh token")) := by
  have hverify : ∀ (l : List RefreshTokenRow),
      verifyRefreshToken l bcryptCompare refreshTok now
        = match (l.filter (fun r =>
            decide (now < r.expiresAt) && decide (r.revokedAt = none))).find?
            (fun r => bcryptCompare refreshTok r.tokenHash) with
          | none => Except.error (ApiError.unauthorizedError "Invalid or expired refresh token")
          | some r => Except.ok r := by
    intro l
    unfold verifyRefreshToken
    rw [htok]
    simp only [Bool.false_eq_true, if_false]
  refine ⟨?_, ?_, ?_⟩
  · rw [hverify rows]
    constructor
    · intro ⟨r, hr⟩
      rcases hfind : (rows.filter (fun r =>
          decide (now < r.expiresAt) && decide (r.revokedAt = none))).find?
          (fun r => bcryptCompare refreshTok r.tokenHash) with _ | r'
      · rw [hfind] at hr
        simp at hr
      · have hmem := List.mem_of_find?_eq_some hfind
        have hcmp := List.find?_some hfind
        rw [List.mem_filter] at hmem
        refine ⟨r', hmem.1, ?_, ?_, hcmp⟩
        · have := hmem.2
          simp only [Bool.and_eq_true, decide_eq_true_eq] at this
          exact this.1
        · have := hmem.2
          simp only [Bool.and_eq_true, decide_eq_true_eq] at this
          exact this.2
    · intro ⟨r, hrm, hexp, hrev, hcmp⟩
      rcases hfind : (rows.filter (fun r =>
          decide (now < r.expiresAt) && decide (r.revokedAt = none))).find?
          (fun r => bcryptCompare refreshTok r.tokenHash) with _ | r'
      · exfalso
        have := List.find?_eq_none.mp hfind r
          (List.mem_filter.mpr ⟨hrm, by simp [hexp, hrev]⟩)
        exact this hcmp
      · exact ⟨r', by rw [hfind]⟩
  · intro hall
    rw [hverify rows]
    have hnone : (rows.filter (fun r =>
        decide (now < r.expiresAt) && decide (r.revokedAt = none))).find?
        (fun r => bcryptCompare refreshTok r.tokenHash) = none := by
      rw [List.find?_eq_none]
      intro x hx hcmp
      rw [List.mem_filter] at hx
      have hxrev : x.revokedAt = none := by
        have := hx.2
        simp only [Bool.and_eq_true, decide_eq_true_eq] at this
        exact this.2
      exact hall x hx.1 hcmp hxrev
    rw [hnone]
  · intro rv hrvm hcmp hrvu hrvrev huniqm
    have hrevoked : logoutRevoke rows bcryptCompare userId refreshTok now2
        = rows.map (fun x =>
            if x.id == rv.id then { x with revokedAt := some now2 } else x) := by
      unfold logoutRevoke
      have hfindrv : (rows.filter (fun r =>
          r.userId == userId && decide (r.revokedAt = none))).find?
          (fun r => bcryptCompare refreshTok r.tokenHash) = some rv := by
        apply find_unique
        · exact List.mem_filter.mpr ⟨hrvm, by simp [hrvu, hrvrev]⟩
        · exact hcmp
        · intro x hx hpx
          exact huniqm x (List.mem_filter.mp hx).1 hpx
      rw [hfindrv]
    rw [hrevoked, hverify]
    have hnone : ((rows.map (fun x =>
        if x.id == rv.id then { x with revokedAt := some now2 } else x)).filter
          (fun r => decide (now < r.expiresAt) && decide (r.revokedAt = none))).find?
        (fun r => bcryptCompare refreshTok r.tokenHash) = none := by
      rw [List.find?_eq_none]
      intro y hy hycmp
      rw [List.mem_filter] at hy
      rcases List.mem_map.mp hy.1 with ⟨x, hxm, hxy⟩
      by_cases hid : (x.id == rv.id) = true
      · rw [hid] at hxy
        simp only [if_true] at hxy
        have : y.revokedAt = some now2 := by rw [← hxy]
        have hyrev : y.revokedAt = none := by
          have := hy.2
          simp only [Bool.and_eq_true, decide_eq_true_eq] at this
          exact this.2
        rw [hyrev] at this
        cases this
      · simp only [Bool.not_eq_true] at hid
        rw [hid] at hxy
        simp only [Bool.false_eq_true, if_false] at hxy
        subst hxy
        have := huniqm x hxm hycmp
        subst this
        simp at hid
    rw [hnone]

/-- Two stored refresh-token rows; the abstract bcrypt comparison accepts
the pair (presented token, stored hash) exactly when the stored hash is
the presented token with a prime appended. -/
def demoRows : List RefreshTokenRow :=
  [⟨"r1", "u1", "tokAh", 1000, none⟩, ⟨"r2", "u2", "tokBh", 1000, none⟩]

/-- The abstract bcrypt comparison used by the C9 witness. -/
def demoCompare (tok hash : String) : Bool := hash == tok ++ "h"

theorem refresh_token_stored_hash_match_witness :
    ((∃ r, verifyRefreshToken demoRows demoCompare "tokA" 5 = Except.ok r)
      ↔ ∃ r ∈ demoRows, 5 < r.expiresAt ∧ r.revokedAt = none
          ∧ demoCompare "tokA" r.tokenHash = true)
    ∧ verifyRefreshToken (logoutRevoke demoRows demoCompare "u1" "tokA" 7)
        demoCompare "tokA" 5
      = Except.error (ApiError.unauthorizedError "Invalid or expired refresh token") := by
  have hmain := refresh_token_stored_hash_match demoRows demoCompare "tokA" 5 7 "u1" rfl
  refine ⟨hmain.1, ?_⟩
  exact hmain.2.2 ⟨"r1", "u1", "tokAh", 1000, none⟩ (by decide) (by decide) rfl rfl
    (by decide)

/-- C10: the optionalAuth middleware is total and never answers the
request with an error: for every request it proceeds, attaching no user
when the Authorization header is absent, is not a Bearer header, or when
token verification fails for any reason (expired, malformed or other),
and attaching the decoded user exactly when verification succeeds. -/
theorem optionalAuth_total (verify : String → Except VerifyError TokenClaims)
    (authHeader : Option String) :
    (∃ u, optionalAuth verify authHeader = MwResult.proceed u)
    ∧ (authHeader = none → optionalAuth verify authHeader = MwResult.proceed none)
    ∧ (∀ h, authHeader = some h → strStartsWith h "Bearer " = false →
        optionalAuth verify authHeader = MwResult.proceed none)
    ∧ (∀ h e, authHeader = some h → strStartsWith h "Bearer " = true →
        verify (strDrop h 7) = Except.error e →
        optionalAuth verify authHeader = MwResult.proceed none)
    ∧ (∀ h c, authHeader = some h → strStartsWith h "Bearer " = true →
        verify (strDrop h 7) = Except.ok c →
        optionalAuth verify authHeader
          = MwResult.proceed (some (userFromClaims c))) := by
  refine ⟨?_, ?_, ?_, ?_, ?_⟩
  · unfold optionalAuth
    rcases authHeader with _ | h
    · exact ⟨none, rfl⟩
    · dsimp only
      by_cases hb : strStartsWith h "Bearer " = true
      · rw [if_neg (by rw [hb]; simp)]
        rcases hv : verify (strDrop h 7) with e | c
        · exact ⟨none, rfl⟩
        · exact ⟨some (userFromClaims c), rfl⟩
      · simp only [Bool.not_eq_true] at hb
        rw [if_pos (by rw [hb]; simp)]
        exact ⟨none, rfl⟩
  · intro hnone
    subst hnone
    rfl
  · intro h hh hb
    subst hh
    unfold optionalAuth
    dsimp only
    rw [if_pos (by rw [hb]; simp)]
  · intro h e hh hb hv
    subst hh
    unfold optionalAuth
    dsimp only
    rw [if_neg (by rw [hb]; simp), hv]
  · intro h c hh hb hv
    subst hh
    unfold optionalAuth
    dsimp only
    rw [if_neg (by rw [hb]; simp), hv]

theorem optionalAuth_total_witness :
    optionalAuth (fun _ => Except.error VerifyError.expired) (some "Bearer xyz")
      = MwResult.proceed none :=
  (optionalAuth_total (fun _ => Except.error VerifyError.expired)
      (some "Bearer xyz")).2.2.2.1 "Bearer xyz" VerifyError.expired rfl
    (by decide) rfl

end Cloudnotes
